import Mathlib

/-!
Shallow embedding of the core of `src/coffeeshop_menu_app.py` (strain identity
model with rename/merge semantics, menu-entry store, offering catalogue and
reconciler), together with proofs of the specification claims about it.

Modelling conventions:
- SQLite tables become Lean lists of records; `AUTOINCREMENT` ids become
  explicit `next_*_id` counters on the state.
- Timestamps (`utc_now_iso()`) are injected as a `now : String` parameter.
- `REAL` price amounts are carried as their validated decimal strings; the
  source never computes with them inside the modelled core (it only stores,
  copies and re-reads them), so the carrier is irrelevant to the claims.
- Fallible operations return `Except` or a `(ok, message)` pair exactly as the
  source does.
-/

namespace Budfinder

/-! ## Character and string helpers (Python semantics on ASCII data) -/

def isWsChar (c : Char) : Bool := c.isWhitespace

/-- Python `s.strip()`: drop leading and trailing whitespace. -/
def pyStripS (s : String) : String :=
  String.mk (((s.data.dropWhile isWsChar).reverse.dropWhile isWsChar).reverse)

/-- Python `s.lower()` (ASCII). -/
def pyLowerS (s : String) : String := String.mk (s.data.map Char.toLower)

/-- Maximal whitespace-separated words of a character list (Python
`s.split()`), via a structurally recursive accumulator. -/
def wordsChAux : List Char → List Char → List (List Char)
  | [], acc => if acc = [] then [] else [acc.reverse]
  | c :: cs, acc =>
    if isWsChar c then
      if acc = [] then wordsChAux cs [] else acc.reverse :: wordsChAux cs []
    else wordsChAux cs (c :: acc)

def wordsCh (l : List Char) : List (List Char) := wordsChAux l []

/-- Python `" ".join(tokens)`. -/
def joinSp : List (List Char) → List Char
  | [] => []
  | [t] => t
  | t :: ts => t ++ ' ' :: joinSp ts

/-- Python `re.sub(r"\s+", " ", raw).strip()` on an already-stripped `raw`:
collapse internal whitespace runs to single spaces.  This equals joining the
whitespace-separated words of the string with single spaces, which is how we
model it. -/
def collapseChars (l : List Char) : List Char :=
  joinSp (wordsCh l)

/-- Python `s.split(" ")`: split on each single space character. -/
def splitSp (l : List Char) : List (List Char) :=
  match l with
  | [] => [[]]
  | c :: cs =>
    if c = ' ' then [] :: splitSp cs
    else
      match splitSp cs with
      | [] => [[c]]
      | t :: ts => (c :: t) :: ts

/-- `ch.upper() if ch.isalpha() else ch` -/
def upAlpha (c : Char) : Char := if c.isAlpha then c.toUpper else c

/-- One character of the regex class `[A-Za-z0-9\- ]`. -/
def safeChar (c : Char) : Bool := c.isAlpha || c.isDigit || c = '-' || c = ' '

/-- `normalise_strain_name` (source lines 526-551): returns
`(normalised, display)`. -/
def normalise_strain_name (name : String) : String × String :=
  let raw := pyStripS name
  if raw = "" then ("", "")
  else
    let s : List Char := collapseChars raw.data
    -- Codes like AK47 / G13 (contains digits, short, safe chars):
    -- uppercase normalised key, display keeps letters uppercase token-by-token.
    if (s.any Char.isDigit) && (s.all safeChar) && (s.length ≤ 24) then
      let display := joinSp ((splitSp s).map (List.map upAlpha))
      (String.mk (display.map Char.toUpper), String.mk display)
    else
      (String.mk (s.map Char.toLower), String.mk s)

/-- `parse_price_amount` (source lines 554-565).  We return the cleaned-up
decimal string accepted by the regex `\d+(?:\.\d+)?` instead of a float; the
modelled core only stores the value. -/
def priceShape (cs : List Char) : Bool :=
  let a := cs.takeWhile Char.isDigit
  let r := cs.dropWhile Char.isDigit
  decide (a ≠ []) &&
    (decide (r = []) ||
      (decide (r.head? = some '.') && decide (r.tail ≠ []) && r.tail.all Char.isDigit))

def parse_price_amount (text : String) : Except String String :=
  let t := pyStripS text
  if t = "" then .error "Price amount is required."
  else
    let t := String.mk (t.data.map (fun c => if c = ',' then '.' else c))
    if priceShape t.data then .ok t
    else .error "Price amount must be a number (e.g. 12 or 12.5)."

/-! ## Data model (tables from `db_init`, source lines 467-511) -/

def VALID_BASE_TYPES : List String := ["sativa", "indica", "hybrid", "hash"]
def DEFAULT_CURRENCY : String := "€"
def DEFAULT_UNIT : String := "g"
def SUPPORTED_CURRENCIES : List String := ["€", "£", "$"]

structure Strain where
  id : Nat
  name_normalised : String
  name_display : String
  created_at : String
deriving Repr, DecidableEq

structure MenuEntry where
  id : Nat
  shop_id : Nat
  strain_id : Nat
  base_type : String
  is_cali : Bool
  price_currency : String
  price_amount : String
  price_unit : String
  notes : String
  created_at : String
deriving Repr, DecidableEq

structure Offering where
  id : Nat
  shop_id : Nat
  strain_id : Nat
  base_type : String
  is_cali : Bool
  price_currency : String
  price_amount : String
  price_unit : String
  notes : String
  status : String
  discontinued_reason : String
  discontinued_since_utc : String
  discontinued_until_utc : String
  last_seen_at_utc : String
  manual_status_lock : Bool
  created_at : String
  updated_at : String
deriving Repr, DecidableEq

structure DB where
  strains : List Strain
  menu_entries : List MenuEntry
  shop_offerings : List Offering
  next_strain_id : Nat
  next_entry_id : Nat
  next_offering_id : Nat
deriving Repr, DecidableEq

def emptyDB : DB := ⟨[], [], [], 1, 1, 1⟩

/-- `SELECT ... FROM strains WHERE id = ?` -/
def findStrainById (db : DB) (sid : Nat) : Option Strain :=
  db.strains.find? (fun st => st.id == sid)

/-- `SELECT ... FROM strains WHERE name_normalised = ?` -/
def findStrainByNorm (db : DB) (norm : String) : Option Strain :=
  db.strains.find? (fun st => st.name_normalised == norm)

/-! ## Strain registry -/

/-- `upsert_strain` (source lines 572-597): insert-or-refresh-display by
matching key; returns the strain id. -/
def upsert_strain (db : DB) (name : String) (now : String) : Except String (DB × Nat) :=
  let p := normalise_strain_name name
  if p.1 = "" then .error "Strain name cannot be blank."
  else
    match findStrainByNorm db p.1 with
    | some st =>
      .ok ({ db with
              strains := db.strains.map (fun s =>
                if s.name_normalised == p.1 then { s with name_display := p.2 } else s) },
            st.id)
    | none =>
      .ok ({ db with
              strains := db.strains ++ [⟨db.next_strain_id, p.1, p.2, now⟩],
              next_strain_id := db.next_strain_id + 1 },
            db.next_strain_id)

/-- Does a menu-entry collide with the merge target for its shop?  This is the
`EXISTS` subquery of the first `DELETE` in the merge branch.  (Deleted rows all
have `strain_id = source`, never `strain_id = target`, so deleting while
scanning never changes the subquery's result and evaluating it against the
original table is exact.) -/
def entryCollides (entries : List MenuEntry) (sourceId targetId : Nat) (me : MenuEntry) : Bool :=
  me.strain_id == sourceId &&
    entries.any (fun me2 => me2.shop_id == me.shop_id && me2.strain_id == targetId)

def offeringCollides (offs : List Offering) (sourceId targetId : Nat) (o : Offering) : Bool :=
  o.strain_id == sourceId &&
    offs.any (fun o2 => o2.shop_id == o.shop_id && o2.strain_id == targetId)

/-- `rename_or_merge_strain_id` (source lines 600-717).  Returns
`((ok, resulting_strain_id, message), new state)`; on failure the state is
unchanged (the source rolls back). -/
def rename_or_merge_strain_id (db : DB) (current_strain_id : Nat) (new_name : String) :
    (Bool × Nat × String) × DB :=
  let p := normalise_strain_name new_name
  if p.1 = "" then ((false, current_strain_id, "Strain name cannot be blank."), db)
  else
    match findStrainById db current_strain_id with
    | none => ((false, current_strain_id, "Strain not found."), db)
    | some cur =>
      if p.1 = cur.name_normalised ∧ p.2 = cur.name_display then
        ((true, current_strain_id,
          "No changes to strain name (submitted=" ++ p.2 ++ ", stored=" ++ cur.name_display ++ ")."), db)
      else
        match findStrainByNorm db p.1 with
        | some existing =>
          if existing.id ≠ current_strain_id then
            -- MERGE: move all references current_strain_id -> existing.id
            let target_id := existing.id
            let entries1 := db.menu_entries.filter
              (fun me => !entryCollides db.menu_entries current_strain_id target_id me)
            let entries2 := entries1.map
              (fun me => if me.strain_id == current_strain_id then { me with strain_id := target_id } else me)
            let offs1 := db.shop_offerings.filter
              (fun o => !offeringCollides db.shop_offerings current_strain_id target_id o)
            let offs2 := offs1.map
              (fun o => if o.strain_id == current_strain_id then { o with strain_id := target_id } else o)
            let strains1 := db.strains.filter (fun st => !(st.id == current_strain_id))
            let strains2 := strains1.map
              (fun st => if st.id == target_id then { st with name_display := p.2 } else st)
            ((true, target_id, "Merged into existing strain: " ++ p.2),
              { db with strains := strains2, menu_entries := entries2, shop_offerings := offs2 })
          else
            -- the only strain holding the target key is ourselves: rename in place
            ((true, current_strain_id, "Renamed strain to: " ++ p.2),
              { db with strains := db.strains.map (fun st =>
                  if st.id == current_strain_id then
                    { st with name_normalised := p.1, name_display := p.2 } else st) })
        | none =>
          -- RENAME in-place (no conflict)
          ((true, current_strain_id, "Renamed strain to: " ++ p.2),
            { db with strains := db.strains.map (fun st =>
                if st.id == current_strain_id then
                  { st with name_normalised := p.1, name_display := p.2 } else st) })

/-! ## Offering catalogue -/

/-- The shared `INSERT ... ON CONFLICT(shop_id, strain_id) DO UPDATE` statement
on `shop_offerings` used by both `sync_offering_from_menu_entry` (source
lines 734-787) and the upsert loop of `reconcile_offerings_for_shop` (source
lines 1211-1264).  `UNIQUE(shop_id, strain_id)` means the `DO UPDATE` hits
exactly the rows matching the pair. -/
def syncOfferingUpsert (db : DB) (shop_id strain_id : Nat) (base_type : String)
    (is_cali : Bool) (price_currency price_amount price_unit notes now : String) : DB :=
  if db.shop_offerings.any (fun o => o.shop_id == shop_id && o.strain_id == strain_id) then
    { db with shop_offerings := db.shop_offerings.map (fun o =>
        if o.shop_id == shop_id && o.strain_id == strain_id then
          { o with
              base_type := base_type
              is_cali := is_cali
              price_currency := price_currency
              price_amount := price_amount
              price_unit := price_unit
              notes := notes
              last_seen_at_utc := now
              updated_at := now
              status := if o.manual_status_lock then o.status else "active"
              discontinued_reason := if o.manual_status_lock then o.discontinued_reason else ""
              discontinued_since_utc := if o.manual_status_lock then o.discontinued_since_utc else ""
              discontinued_until_utc := if o.manual_status_lock then o.discontinued_until_utc else "" }
        else o) }
  else
    { db with
        shop_offerings := db.shop_offerings ++
          [{ id := db.next_offering_id
             shop_id := shop_id
             strain_id := strain_id
             base_type := base_type
             is_cali := is_cali
             price_currency := price_currency
             price_amount := price_amount
             price_unit := price_unit
             notes := notes
             status := "active"
             discontinued_reason := ""
             discontinued_since_utc := ""
             discontinued_until_utc := ""
             last_seen_at_utc := now
             manual_status_lock := false
             created_at := now
             updated_at := now }]
        next_offering_id := db.next_offering_id + 1 }

/-- `sync_offering_from_menu_entry` (source lines 720-787): it always writes
`DEFAULT_UNIT` and strips the notes. -/
def sync_offering_from_menu_entry (db : DB) (shop_id strain_id : Nat) (base_type : String)
    (is_cali : Bool) (price_currency price_amount notes now : String) : DB :=
  syncOfferingUpsert db shop_id strain_id base_type is_cali price_currency price_amount
    DEFAULT_UNIT (pyStripS notes) now

/-! ## Menu entry store -/

/-- The `INSERT ... ON CONFLICT(shop_id, strain_id) DO UPDATE` on
`menu_entries` inside `add_or_update_menu_entry` (source lines 822-850). -/
def upsertMenuEntryRow (db : DB) (shop_id strain_id : Nat) (base_type : String)
    (is_cali : Bool) (price_currency price_amount notes now : String) : DB :=
  if db.menu_entries.any (fun me => me.shop_id == shop_id && me.strain_id == strain_id) then
    { db with menu_entries := db.menu_entries.map (fun me =>
        if me.shop_id == shop_id && me.strain_id == strain_id then
          { me with
              base_type := base_type
              is_cali := is_cali
              price_currency := price_currency
              price_amount := price_amount
              price_unit := DEFAULT_UNIT
              notes := notes
              created_at := now }
        else me) }
  else
    { db with
        menu_entries := db.menu_entries ++
          [{ id := db.next_entry_id
             shop_id := shop_id
             strain_id := strain_id
             base_type := base_type
             is_cali := is_cali
             price_currency := price_currency
             price_amount := price_amount
             price_unit := DEFAULT_UNIT
             notes := notes
             created_at := now }]
        next_entry_id := db.next_entry_id + 1 }

/-- `add_or_update_menu_entry` (source lines 790-865). -/
def add_or_update_menu_entry (db : DB) (shop_id : Nat) (strain_name base_type : String)
    (is_cali : Bool) (price_currency price_amount_text notes now : String) :
    (Bool × String) × DB :=
  let bt := pyLowerS (pyStripS base_type)
  if !(VALID_BASE_TYPES.contains bt) then
    ((false, "Base type must be one of: sativa, indica, hybrid, hash"), db)
  else
    let pc := pyStripS (if price_currency = "" then DEFAULT_CURRENCY else price_currency)
    if !(SUPPORTED_CURRENCIES.contains pc) then
      ((false, "Currency must be one of the supported currencies"), db)
    else
      match parse_price_amount price_amount_text with
      | .error e => ((false, e), db)
      | .ok amount =>
        match upsert_strain db strain_name now with
        | .error e => ((false, e), db)
        | .ok (db1, strain_id) =>
          let db2 := upsertMenuEntryRow db1 shop_id strain_id bt is_cali pc amount (pyStripS notes) now
          let db3 := sync_offering_from_menu_entry db2 shop_id strain_id bt is_cali pc amount
            (pyStripS notes) now
          ((true, "Saved."), db3)

/-- The edit path of `update_menu_entry_by_id` after field validation (source
lines 898-1022): look up the entry, rename/merge its strain, resolve a
merge-introduced duplicate by deleting this entry, otherwise update the row
and sync the catalogue.  `bt`, `pc`, `amount` and `nts` are the already
validated/normalised field values. -/
def update_menu_entry_core (db : DB) (shop_id entry_id : Nat) (new_strain_name bt : String)
    (is_cali : Bool) (pc amount nts now : String) : (Bool × String) × DB :=
  -- "Ensure entry exists and belongs to this shop" (a JOIN with strains:
  -- the row is only found when its strain exists too)
  match db.menu_entries.find? (fun me => me.id == entry_id && me.shop_id == shop_id) with
  | none => ((false, "Entry not found."), db)
  | some entryRow =>
    match findStrainById db entryRow.strain_id with
    | none => ((false, "Entry not found."), db)
    | some _curStrain =>
      let current_strain_id := entryRow.strain_id
      let p := normalise_strain_name new_strain_name
      if p.1 = "" then ((false, "Strain name cannot be blank."), db)
      else
        -- both source branches make the identical rename_or_merge call
        let r := rename_or_merge_strain_id db current_strain_id new_strain_name
        let ok := r.1.1
        let resulting_strain_id := r.1.2.1
        let rename_msg := r.1.2.2
        let db1 := r.2
        if !ok then ((false, rename_msg), db1)
        else
          if resulting_strain_id ≠ current_strain_id &&
              db1.menu_entries.any (fun me =>
                me.shop_id == shop_id && me.strain_id == resulting_strain_id &&
                  !(me.id == entry_id)) then
            -- the shop already has the merged strain entry: delete this one
            ((true, rename_msg ++ ". Note: merged with existing shop entry; duplicate removed."),
              { db1 with menu_entries := db1.menu_entries.filter (fun me =>
                  !(me.id == entry_id && me.shop_id == shop_id)) })
          else
            let db2 := { db1 with menu_entries := db1.menu_entries.map (fun me =>
                if me.id == entry_id && me.shop_id == shop_id then
                  { me with
                      strain_id := resulting_strain_id
                      base_type := bt
                      is_cali := is_cali
                      price_currency := pc
                      price_amount := amount
                      price_unit := DEFAULT_UNIT
                      notes := nts
                      created_at := now }
                else me) }
            let db3 := sync_offering_from_menu_entry db2 shop_id resulting_strain_id bt
              is_cali pc amount nts now
            -- read back saved state (JOIN with strains again)
            if db3.menu_entries.any (fun me =>
                me.id == entry_id && me.shop_id == shop_id &&
                  (findStrainById db3 me.strain_id).isSome) then
              ((true, rename_msg ++ ". Updated."), db3)
            else ((false, "Save failed: could not re-load saved entry."), db3)

/-- `update_menu_entry_by_id` (source lines 868-1022). -/
def update_menu_entry_by_id (db : DB) (shop_id entry_id : Nat) (new_strain_name base_type : String)
    (is_cali : Bool) (price_currency price_amount_text notes now : String) :
    (Bool × String) × DB :=
  let bt := pyLowerS (pyStripS base_type)
  if !(VALID_BASE_TYPES.contains bt) then
    ((false, "Base type must be one of: sativa, indica, hybrid, hash"), db)
  else
    let pc := pyStripS (if price_currency = "" then DEFAULT_CURRENCY else price_currency)
    if !(SUPPORTED_CURRENCIES.contains pc) then
      ((false, "Currency must be one of the supported currencies"), db)
    else
      match parse_price_amount price_amount_text with
      | .error e => ((false, e), db)
      | .ok amount =>
        update_menu_entry_core db shop_id entry_id new_strain_name bt is_cali pc amount
          (pyStripS notes) now

/-- `delete_menu_entry_by_id` (source lines 1025-1028). -/
def delete_menu_entry_by_id (db : DB) (shop_id entry_id : Nat) : DB :=
  { db with menu_entries := db.menu_entries.filter (fun me =>
      !(me.id == entry_id && me.shop_id == shop_id)) }

/-! ## Counters and reconciler -/

def count_menu_entries_for_shop (db : DB) (shop_id : Nat) : Nat :=
  (db.menu_entries.filter (fun me => me.shop_id == shop_id)).length

def count_active_offerings_for_shop (db : DB) (shop_id : Nat) : Nat :=
  (db.shop_offerings.filter (fun o => o.shop_id == shop_id && o.status == "active")).length

def count_active_unlocked_offerings_for_shop (db : DB) (shop_id : Nat) : Nat :=
  (db.shop_offerings.filter (fun o =>
    o.shop_id == shop_id && o.status == "active" && !o.manual_status_lock)).length

def count_would_auto_discontinue_for_shop (db : DB) (shop_id : Nat) : Nat :=
  (db.shop_offerings.filter (fun o =>
    o.shop_id == shop_id && o.status == "active" && !o.manual_status_lock &&
      !(db.menu_entries.any (fun me => me.shop_id == shop_id && me.strain_id == o.strain_id)))).length

/-- The auto-discontinue sweep at the end of `reconcile_offerings_for_shop`
(source lines 1266-1283). -/
def discontinueSweep (db : DB) (shop_id : Nat) (now : String) : DB :=
  { db with shop_offerings := db.shop_offerings.map (fun o =>
      if o.shop_id == shop_id && o.status == "active" && !o.manual_status_lock &&
          !(db.menu_entries.any (fun me => me.shop_id == shop_id && me.strain_id == o.strain_id)) then
        { o with
            status := "discontinued"
            discontinued_reason := "missing from latest menu"
            discontinued_since_utc := now
            discontinued_until_utc := ""
            updated_at := now }
      else o) }

/-- One iteration of the reconcile upsert loop (source lines 1209-1264): the
same `ON CONFLICT` statement as sync-from-menu, but passing the entry's own
`price_unit` and its unstripped notes. -/
def reconcileStep (shop_id : Nat) (now : String) (d : DB) (me : MenuEntry) : DB :=
  syncOfferingUpsert d shop_id me.strain_id me.base_type me.is_cali me.price_currency
    me.price_amount me.price_unit me.notes now

/-- `reconcile_offerings_for_shop` (source lines 1195-1285): sync every
current menu entry of the shop into the catalogue, then auto-discontinue the
active unlocked offerings absent from the current menu. -/
def reconcile_offerings_for_shop (db : DB) (shop_id : Nat) (now : String) : DB :=
  let current := db.menu_entries.filter (fun me => me.shop_id == shop_id)
  let db1 := current.foldl (reconcileStep shop_id now) db
  discontinueSweep db1 shop_id now

/-- The guard-and-reconcile core of the `finish_menu` route (source lines
3477-3534); the route also marks the `menus` row processed and redirects,
which is outside the modelled tables.  Returns whether reconciliation ran. -/
def finish_menu (db : DB) (shop_id : Nat) (allow_empty allow_mass : Bool) (now : String) :
    Bool × DB :=
  let menu_entry_count := count_menu_entries_for_shop db shop_id
  let active_offering_count := count_active_offerings_for_shop db shop_id
  let active_unlocked_count := count_active_unlocked_offerings_for_shop db shop_id
  let would_auto_discontinue := count_would_auto_discontinue_for_shop db shop_id
  if menu_entry_count = 0 ∧ active_offering_count > 0 ∧ ¬allow_empty then
    (false, db)
  else if menu_entry_count > 0 ∧ active_unlocked_count ≥ 5 ∧
      would_auto_discontinue = active_unlocked_count ∧ ¬allow_mass then
    (false, db)
  else
    (true, reconcile_offerings_for_shop db shop_id now)

/-- `set_offering_status` (source lines 1294-1339). -/
def set_offering_status (db : DB) (shop_id strain_id : Nat) (status reason until_utc : String)
    (lock : Bool) (now : String) : Except String DB :=
  if status ≠ "active" ∧ status ≠ "discontinued" then
    .error "status must be active or discontinued"
  else if status = "active" then
    .ok { db with shop_offerings := db.shop_offerings.map (fun o =>
        if o.shop_id == shop_id && o.strain_id == strain_id then
          { o with
              status := "active"
              discontinued_reason := ""
              discontinued_since_utc := ""
              discontinued_until_utc := ""
              manual_status_lock := lock
              updated_at := now }
        else o) }
  else
    .ok { db with shop_offerings := db.shop_offerings.map (fun o =>
        if o.shop_id == shop_id && o.strain_id == strain_id then
          { o with
              status := "discontinued"
              discontinued_reason := if reason = "" then "manual" else reason
              discontinued_since_utc := now
              discontinued_until_utc := until_utc
              manual_status_lock := lock
              updated_at := now }
        else o) }

/-! ## Specification-side model of the normaliser (for the refinement claim) -/

/-- Modelled from the spec (§4.1): trim and collapse whitespace; blank yields
the empty result; a collapsed string with at least one digit, only
letters/digits/hyphens/spaces, and at most 24 characters is "coded": its
display uppercases every alphabetic character (digits/hyphens untouched) and
its matching key is the uppercased display form; otherwise the display is the
collapsed string as typed and the matching key its lowercase form. -/
def normalizeSpec (name : String) : String × String :=
  let raw := pyStripS name
  if raw = "" then ("", "")
  else
    let s : List Char := collapseChars raw.data
    if (s.any Char.isDigit) && (s.all safeChar) && (s.length ≤ 24) then
      let display := s.map upAlpha
      (String.mk (display.map Char.toUpper), String.mk display)
    else
      (String.mk (s.map Char.toLower), String.mk s)

/-! ## Invariants and state predicates used by the claims -/

/-- Well-formedness of the strains table guaranteed by SQLite:
`INTEGER PRIMARY KEY AUTOINCREMENT` ids are distinct and below the next
autoincrement value. -/
def StrainWF (db : DB) : Prop :=
  (db.strains.map (fun st => st.id)).Nodup ∧ ∀ st ∈ db.strains, st.id < db.next_strain_id

/-- The claimed invariant: no two strain rows share a matching key
(`UNIQUE(name_normalised)`). -/
def KeysUnique (db : DB) : Prop :=
  (db.strains.map (fun st => st.name_normalised)).Nodup

/-- Well-formedness of the offerings table guaranteed by SQLite (primary-key
ids distinct and below the next autoincrement value). -/
def OffWF (db : DB) : Prop :=
  (db.shop_offerings.map (fun o => o.id)).Nodup ∧
    ∀ o ∈ db.shop_offerings, o.id < db.next_offering_id

/-- The lock-protected fields of an offering: status, discontinuation
metadata, and the lock itself. -/
def lockFieldsEq (o o' : Offering) : Prop :=
  o'.status = o.status ∧ o'.discontinued_reason = o.discontinued_reason ∧
    o'.discontinued_since_utc = o.discontinued_since_utc ∧
    o'.discontinued_until_utc = o.discontinued_until_utc ∧
    o'.manual_status_lock = o.manual_status_lock

/-- Every manually locked offering of `db` survives into `db'` with its
status, discontinuation metadata and lock unchanged, and every row of `db'`
carrying its id agrees with it on those fields. -/
def LockStable (db db' : DB) : Prop :=
  ∀ o ∈ db.shop_offerings, o.manual_status_lock = true →
    (∃ o' ∈ db'.shop_offerings, o'.id = o.id ∧ lockFieldsEq o o') ∧
    (∀ o' ∈ db'.shop_offerings, o'.id = o.id → lockFieldsEq o o')

/-- Auxiliary invariant for reasoning about the reconcile loop: every offering
row of `d` whose id is fresh with respect to `base` was created by the loop,
so it is active with empty discontinuation metadata, unlocked, stamped `now`,
belongs to shop `sh` and corresponds to some entry of `menu`. -/
def FreshRowsActive (sh : Nat) (now : String) (menu : List MenuEntry)
    (base : List Offering) (d : DB) : Prop :=
  ∀ o' ∈ d.shop_offerings, (∀ o ∈ base, o.id ≠ o'.id) →
    o'.status = "active" ∧ o'.discontinued_reason = "" ∧ o'.discontinued_since_utc = "" ∧
      o'.discontinued_until_utc = "" ∧ o'.manual_status_lock = false ∧
      o'.last_seen_at_utc = now ∧ o'.created_at = now ∧ o'.shop_id = sh ∧
      ∃ me ∈ menu, me.strain_id = o'.strain_id

/-- Auxiliary invariant for the reconcile loop: the catalogue of `d` holds a
row for (shop `sh`, strain `σ`) freshly seen at `now` and active unless
manually locked. -/
def MenuRowSynced (sh σ : Nat) (now : String) (d : DB) : Prop :=
  ∃ o' ∈ d.shop_offerings, o'.shop_id = sh ∧ o'.strain_id = σ ∧
    o'.last_seen_at_utc = now ∧ (o'.manual_status_lock = false → o'.status = "active")

/-- An operation sequence over the strain registry (the operations C2
quantifies over). -/
inductive RegistryOp where
  | resolve (name : String) (now : String)
  | rename (sid : Nat) (new_name : String)
deriving Repr

def applyRegistryOp (db : DB) : RegistryOp → DB
  | .resolve name now =>
    match upsert_strain db name now with
    | .ok (db', _) => db'
    | .error _ => db
  | .rename sid new_name => (rename_or_merge_strain_id db sid new_name).2

def applyRegistryOps (db : DB) (ops : List RegistryOp) : DB :=
  ops.foldl applyRegistryOp db

/-! ## Sample rows for concrete scenarios -/

def sampleStrain (i : Nat) (n d : String) : Strain := ⟨i, n, d, "t0"⟩

def sampleEntry (i sh sid : Nat) : MenuEntry :=
  ⟨i, sh, sid, "sativa", false, "€", "10", "g", "", "t0"⟩

def sampleOff (i sh sid : Nat) (status : String) (lock : Bool) : Offering :=
  ⟨i, sh, sid, "sativa", false, "€", "10", "g", "", status, "", "", "", "t0", lock, "t0", "t0"⟩

/-- Shop 1 with six active unlocked offerings and zero current menu entries
(the §8 safety-guard scenario). -/
def dbGuard : DB :=
  ⟨[], [], [sampleOff 1 1 1 "active" false, sampleOff 2 1 2 "active" false,
    sampleOff 3 1 3 "active" false, sampleOff 4 1 4 "active" false,
    sampleOff 5 1 5 "active" false, sampleOff 6 1 6 "active" false], 1, 1, 7⟩

/-- Strains A/B/C; shop 1 currently lists only A but has active unlocked
offerings for all three (the §8 auto-discontinue scenario). -/
def dbRec : DB :=
  ⟨[sampleStrain 1 "a" "A", sampleStrain 2 "b" "B", sampleStrain 3 "c" "C"],
    [sampleEntry 1 1 1],
    [sampleOff 1 1 1 "active" false, sampleOff 2 1 2 "active" false,
      sampleOff 3 1 3 "active" false], 4, 2, 4⟩

/-- Tropicana Chery (id 1) / Tropicana Cherry (id 2) with entries and
offerings at shops 1 and 2; shop 1 references both strains, shop 2 only the
source (the §8 merge-correctness scenario). -/
def dbMerge : DB :=
  ⟨[sampleStrain 1 "tropicana chery" "Tropicana Chery",
    sampleStrain 2 "tropicana cherry" "Tropicana Cherry"],
    [sampleEntry 1 1 1, sampleEntry 2 1 2, sampleEntry 3 2 1],
    [sampleOff 1 1 1 "active" false, sampleOff 2 1 2 "active" false,
      sampleOff 3 2 1 "active" false], 3, 4, 4⟩

/-- Shop 1 has menu entries for both "Amnesia" (strain 1) and "Amnesya"
(strain 2) (the §8 duplicate-merge-on-edit scenario). -/
def dbAmnesia : DB :=
  ⟨[sampleStrain 1 "amnesia" "Amnesia", sampleStrain 2 "amnesya" "Amnesya"],
    [sampleEntry 1 1 1, sampleEntry 2 1 2], [], 3, 3, 1⟩

/-! ## General helper lemmas -/

theorem nodupMapInj {α β : Type} {l : List α} {f : α → β} (h : (l.map f).Nodup)
    {a b : α} (ha : a ∈ l) (hb : b ∈ l) (hf : f a = f b) : a = b :=
  List.inj_on_of_nodup_map h ha hb hf

theorem find?_key_eq {α β : Type} [DecidableEq β] {l : List α} {f : α → β}
    (hnd : (l.map f).Nodup) {a : α} (ha : a ∈ l) :
    l.find? (fun x => f x == f a) = some a := by
  cases h : l.find? (fun x => f x == f a) with
  | none =>
    have := List.find?_eq_none.mp h a ha
    simp at this
  | some x =>
    have hx : f x = f a := by
      have := List.find?_some h
      simpa using this
    have hmem : x ∈ l := List.mem_of_find?_eq_some h
    rw [nodupMapInj hnd hmem ha hx]

theorem mapIdOfPointwise {α : Type} {β : Type} {g : α → β} {l : List α} {f : α → α}
    (h : ∀ o, g (f o) = g o) : (l.map f).map g = l.map g := by
  rw [List.map_map]
  exact List.map_congr_left (fun o _ => h o)

theorem and_beq_false {a b c d : Nat} (h : ¬(a = b ∧ c = d)) : (a == b && c == d) = false := by
  by_cases h1 : a = b
  · by_cases h2 : c = d
    · exact absurd ⟨h1, h2⟩ h
    · simp [h2]
  · simp [h1]

theorem find?_unique {α : Type} {p : α → Bool} {l : List α} {a : α} (ha : a ∈ l)
    (hpa : p a = true) (huniq : ∀ x ∈ l, p x = true → x = a) : l.find? p = some a := by
  cases h : l.find? p with
  | none => exact absurd hpa (by simpa using List.find?_eq_none.mp h a ha)
  | some x => rw [huniq x (List.mem_of_find?_eq_some h) (List.find?_some h)]

/-! ## Helper lemmas about the offering upsert and the reconcile loop -/

theorem syncOfferingUpsert_menu_entries (d : DB) (sh sid : Nat) (bt : String) (ic : Bool)
    (pc amt u nts now : String) :
    (syncOfferingUpsert d sh sid bt ic pc amt u nts now).menu_entries = d.menu_entries := by
  unfold syncOfferingUpsert
  split <;> rfl

theorem syncOfferingUpsert_strains (d : DB) (sh sid : Nat) (bt : String) (ic : Bool)
    (pc amt u nts now : String) :
    (syncOfferingUpsert d sh sid bt ic pc amt u nts now).strains = d.strains := by
  unfold syncOfferingUpsert
  split <;> rfl

/-- Every offering row survives the upsert with its id intact. -/
theorem syncOfferingUpsert_survives (d : DB) (sh sid : Nat) (bt : String) (ic : Bool)
    (pc amt u nts now : String) {o : Offering} (ho : o ∈ d.shop_offerings) :
    ∃ o' ∈ (syncOfferingUpsert d sh sid bt ic pc amt u nts now).shop_offerings, o'.id = o.id := by
  unfold syncOfferingUpsert
  split
  · exact ⟨_, List.mem_map_of_mem _ ho, by split <;> rfl⟩
  · exact ⟨o, List.mem_append_left _ ho, rfl⟩

/-- A row not matching the upserted (shop, strain) pair is untouched. -/
theorem syncOfferingUpsert_preserves (d : DB) (sh sid : Nat) (bt : String) (ic : Bool)
    (pc amt u nts now : String) {o : Offering} (ho : o ∈ d.shop_offerings)
    (hc : (o.shop_id == sh && o.strain_id == sid) = false) :
    o ∈ (syncOfferingUpsert d sh sid bt ic pc amt u nts now).shop_offerings := by
  unfold syncOfferingUpsert
  split
  · exact List.mem_map.mpr ⟨o, ho, by simp [hc]⟩
  · exact List.mem_append_left _ ho

theorem foldlReconcileStep_menu_entries (sh : Nat) (now : String) :
    ∀ (L : List MenuEntry) (d : DB),
      (L.foldl (reconcileStep sh now) d).menu_entries = d.menu_entries := by
  intro L
  induction L with
  | nil => intro d; rfl
  | cons me L ih =>
    intro d
    rw [List.foldl_cons, ih]
    exact syncOfferingUpsert_menu_entries d sh me.strain_id me.base_type me.is_cali
      me.price_currency me.price_amount me.price_unit me.notes now

/-! ## C7: the normaliser matches its specification -/

theorem splitSp_ne_nil (l : List Char) : splitSp l ≠ [] := by
  cases l with
  | nil => simp [splitSp]
  | cons c cs =>
    simp only [splitSp]
    split
    · simp
    · cases splitSp cs <;> simp

theorem joinSp_cons_cons (x : Char) (t : List Char) (ts : List (List Char)) :
    joinSp ((x :: t) :: ts) = x :: joinSp (t :: ts) := by
  cases ts <;> simp [joinSp]

/-- Uppercasing alphabetic characters token-by-token over single-space tokens
is the same as uppercasing them across the whole collapsed string. -/
theorem joinSp_splitSp_map_upAlpha (l : List Char) :
    joinSp ((splitSp l).map (List.map upAlpha)) = l.map upAlpha := by
  induction l with
  | nil => simp [splitSp, joinSp]
  | cons c cs ih =>
    by_cases hc : c = ' '
    · subst hc
      simp only [splitSp, if_pos rfl]
      obtain ⟨t, ts, hts⟩ : ∃ t ts, splitSp cs = t :: ts := by
        cases h : splitSp cs with
        | nil => exact absurd h (splitSp_ne_nil cs)
        | cons t ts => exact ⟨t, ts, rfl⟩
      rw [hts] at ih ⊢
      have hsp : upAlpha ' ' = ' ' := by decide
      simp only [List.map_cons, List.map_nil, joinSp, hsp]
      simpa using ih
  -- c ≠ ' '
    · simp only [splitSp, if_neg hc]
      cases h : splitSp cs with
      | nil => exact absurd h (splitSp_ne_nil cs)
      | cons t ts =>
        rw [h] at ih
        simp only [List.map_cons, joinSp_cons_cons, List.map_cons] at ih ⊢
        rw [ih]

/-- C7 — Normalizer definition: `normalise_strain_name` implements exactly the
specified contract `normalizeSpec` (trim/collapse; coded branch uppercases
alphabetic characters with the matching key equal to the uppercased display;
default branch keeps the collapsed display and lowercases the key; blank input
yields the empty result). -/
theorem normalise_strain_name_matches_spec (name : String) :
    normalise_strain_name name = normalizeSpec name := by
  unfold normalise_strain_name normalizeSpec
  by_cases hb : pyStripS name = ""
  · simp [hb]
  · simp only [if_neg hb]
    split
    · rw [joinSp_splitSp_map_upAlpha]
    · rfl

/-! ## C5: finish/reconcile safety guard -/

/-- C5 — Safety guard: without the matching override flag, finish/reconcile is
refused with no state change when (a) the shop has menu entries, at least 5
active unlocked offerings, and every one of them would be auto-discontinued, or
(b) the shop has no menu entries but still has active offerings; with the
matching override flag the reconcile proceeds. -/
theorem finish_menu_guard (db : DB) (shop_id : Nat) (now : String) :
    (∀ ae : Bool, 0 < count_menu_entries_for_shop db shop_id →
      5 ≤ count_active_unlocked_offerings_for_shop db shop_id →
      count_would_auto_discontinue_for_shop db shop_id =
        count_active_unlocked_offerings_for_shop db shop_id →
      finish_menu db shop_id ae false now = (false, db)) ∧
    (∀ am : Bool, count_menu_entries_for_shop db shop_id = 0 →
      0 < count_active_offerings_for_shop db shop_id →
      finish_menu db shop_id false am now = (false, db)) ∧
    (∀ ae : Bool, 0 < count_menu_entries_for_shop db shop_id →
      5 ≤ count_active_unlocked_offerings_for_shop db shop_id →
      count_would_auto_discontinue_for_shop db shop_id =
        count_active_unlocked_offerings_for_shop db shop_id →
      finish_menu db shop_id ae true now =
        (true, reconcile_offerings_for_shop db shop_id now)) ∧
    (∀ am : Bool, count_menu_entries_for_shop db shop_id = 0 →
      0 < count_active_offerings_for_shop db shop_id →
      finish_menu db shop_id true am now =
        (true, reconcile_offerings_for_shop db shop_id now)) := by
  refine ⟨fun ae h1 h2 h3 => ?_, fun am h1 h2 => ?_, fun ae h1 h2 h3 => ?_, fun am h1 h2 => ?_⟩
  · unfold finish_menu
    rw [if_neg (by intro h; omega), if_pos ⟨h1, h2, h3, by simp⟩]
  · unfold finish_menu
    rw [if_pos ⟨h1, h2, by simp⟩]
  · unfold finish_menu
    rw [if_neg (by intro h; omega), if_neg (by intro h; simp at h)]
  · unfold finish_menu
    rw [if_neg (by intro h; simp at h), if_neg (by intro h; omega)]

theorem finish_menu_guard_witness :
    finish_menu dbGuard 1 false false "t1" = (false, dbGuard) ∧
    finish_menu dbGuard 1 true false "t1" =
      (true, reconcile_offerings_for_shop dbGuard 1 "t1") ∧
    ((finish_menu dbGuard 1 true false "t1").2.shop_offerings.all
      (fun o => o.status == "discontinued")) = true := by
  refine ⟨(finish_menu_guard dbGuard 1 "t1").2.1 false (by decide) (by decide),
    (finish_menu_guard dbGuard 1 "t1").2.2.2 false (by decide) (by decide), by decide⟩

/-! ## C9: not-found reporting -/

/-- C9 counterexample — the claim says every operation invoked on a missing
id reports a not-found error; but `set_offering_status` on a (shop, strain)
pair with no Offering row returns success and silently does nothing (the
source's `UPDATE` simply matches zero rows and commits). -/
theorem set_offering_status_missing_reports_no_error :
    set_offering_status emptyDB 1 1 "active" "" "" true "t1" = Except.ok emptyDB := by
  rfl

/-- C9 amended — rename/merge on a missing strain and update of a missing
menu entry report a not-found error distinct from validation errors, with no
mutation; `delete_menu_entry_by_id` and `set_offering_status` on a missing
id/pair also perform no mutation, but complete silently without reporting a
not-found error. -/
theorem not_found_reporting (db : DB) :
    (∀ (sid : Nat) (new_name : String),
      (normalise_strain_name new_name).1 ≠ "" →
      findStrainById db sid = none →
      rename_or_merge_strain_id db sid new_name = ((false, sid, "Strain not found."), db)) ∧
    (∀ (shop_id entry_id : Nat) (name base_type : String) (ic : Bool)
        (pc pat notes now amt : String),
      VALID_BASE_TYPES.contains (pyLowerS (pyStripS base_type)) = true →
      SUPPORTED_CURRENCIES.contains
        (pyStripS (if pc = "" then DEFAULT_CURRENCY else pc)) = true →
      parse_price_amount pat = .ok amt →
      db.menu_entries.find? (fun me => me.id == entry_id && me.shop_id == shop_id) = none →
      update_menu_entry_by_id db shop_id entry_id name base_type ic pc pat notes now =
        ((false, "Entry not found."), db)) ∧
    (∀ shop_id entry_id : Nat,
      (∀ me ∈ db.menu_entries, ¬(me.id = entry_id ∧ me.shop_id = shop_id)) →
      delete_menu_entry_by_id db shop_id entry_id = db) ∧
    (∀ (shop_id strain_id : Nat) (status reason until_utc now : String) (lock : Bool),
      (status = "active" ∨ status = "discontinued") →
      (∀ o ∈ db.shop_offerings, ¬(o.shop_id = shop_id ∧ o.strain_id = strain_id)) →
      set_offering_status db shop_id strain_id status reason until_utc lock now =
        Except.ok db) := by
  refine ⟨fun sid new_name hnn hfind => ?_, fun sh eid nm bt ic pc pat nts now amt hbt hpc hpa hfind => ?_,
    fun sh eid h => ?_, fun sh sid status reason untl now lock hst h => ?_⟩
  · simp [rename_or_merge_strain_id, hfind, hnn]
  · have hbt' : pyLowerS (pyStripS bt) ∈ VALID_BASE_TYPES := by simpa using hbt
    have hpc' : pyStripS (if pc = "" then DEFAULT_CURRENCY else pc) ∈ SUPPORTED_CURRENCIES := by
      simpa using hpc
    simp [update_menu_entry_by_id, update_menu_entry_core, hbt', hpc', hpa, hfind]
  · have hf : db.menu_entries.filter (fun me => !(me.id == eid && me.shop_id == sh)) =
        db.menu_entries := by
      rw [List.filter_eq_self]
      intro me hme
      have := h me hme
      simp only [Bool.not_eq_true', Bool.and_eq_false_iff, beq_eq_false_iff_ne, ne_eq]
      by_cases h1 : me.id = eid
      · exact Or.inr (fun h2 => this ⟨h1, h2⟩)
      · exact Or.inl h1
    unfold delete_menu_entry_by_id
    rw [hf]
  · have hcond : ∀ o ∈ db.shop_offerings, (o.shop_id == sh && o.strain_id == sid) = false := by
      intro o ho
      have := h o ho
      by_cases h1 : o.shop_id = sh
      · by_cases h2 : o.strain_id = sid
        · exact absurd ⟨h1, h2⟩ this
        · simp [h2]
      · simp [h1]
    rcases hst with hst | hst <;> subst hst
    · unfold set_offering_status
      rw [if_neg (by simp), if_pos rfl]
      have hmap : (db.shop_offerings.map (fun o =>
          if o.shop_id == sh && o.strain_id == sid then
            { o with
                status := "active"
                discontinued_reason := ""
                discontinued_since_utc := ""
                discontinued_until_utc := ""
                manual_status_lock := lock
                updated_at := now }
          else o)) = db.shop_offerings := by
        have hpt : ∀ o ∈ db.shop_offerings, (if o.shop_id == sh && o.strain_id == sid then
            { o with
                status := "active"
                discontinued_reason := ""
                discontinued_since_utc := ""
                discontinued_until_utc := ""
                manual_status_lock := lock
                updated_at := now }
          else o) = o := by
          intro o ho
          simp [hcond o ho]
        rw [List.map_congr_left hpt]
        simp
      rw [hmap]
    · unfold set_offering_status
      rw [if_neg (by simp), if_neg (by simp)]
      have hmap : (db.shop_offerings.map (fun o =>
          if o.shop_id == sh && o.strain_id == sid then
            { o with
                status := "discontinued"
                discontinued_reason := if reason = "" then "manual" else reason
                discontinued_since_utc := now
                discontinued_until_utc := untl
                manual_status_lock := lock
                updated_at := now }
          else o)) = db.shop_offerings := by
        have hpt : ∀ o ∈ db.shop_offerings, (if o.shop_id == sh && o.strain_id == sid then
            { o with
                status := "discontinued"
                discontinued_reason := if reason = "" then "manual" else reason
                discontinued_since_utc := now
                discontinued_until_utc := untl
                manual_status_lock := lock
                updated_at := now }
          else o) = o := by
          intro o ho
          simp [hcond o ho]
        rw [List.map_congr_left hpt]
        simp
      rw [hmap]

theorem not_found_reporting_witness :
    rename_or_merge_strain_id dbGuard 9 "Zkittlez" = ((false, 9, "Strain not found."), dbGuard) ∧
    delete_menu_entry_by_id dbGuard 1 7 = dbGuard ∧
    set_offering_status dbGuard 1 9 "active" "" "" true "t1" = Except.ok dbGuard :=
  ⟨(not_found_reporting dbGuard).1 9 "Zkittlez" (by decide) (by decide),
    (not_found_reporting dbGuard).2.2.1 1 7 (by decide),
    (not_found_reporting dbGuard).2.2.2 1 9 "active" "" "" "t1" true (Or.inl rfl) (by decide)⟩

/-! ## C10: initial offering state -/

theorem reconcileStep_fresh {sh : Nat} {now : String} {menu : List MenuEntry}
    {base : List Offering} {d : DB} {me : MenuEntry} (hme : me ∈ menu)
    (hP : FreshRowsActive sh now menu base d) :
    FreshRowsActive sh now menu base (reconcileStep sh now d me) := by
  intro o'' h'' hfresh
  unfold reconcileStep syncOfferingUpsert at h''
  split at h''
  · simp only [List.mem_map] at h''
    obtain ⟨r, hr, hro⟩ := h''
    have hid : r.id = o''.id := by
      subst hro
      split <;> rfl
    have hPr := hP r hr (by intro o hob hcontra; exact hfresh o hob (hcontra.trans hid))
    subst hro
    split
    · obtain ⟨_, _, _, _, hlock, _, hcr, hshop, hstr⟩ := hPr
      exact ⟨by simp [hlock], by simp [hlock], by simp [hlock], by simp [hlock],
        hlock, rfl, hcr, hshop, hstr⟩
    · exact hPr
  · rcases List.mem_append.mp h'' with hl | hr
    · exact hP o'' hl (by intro o hob hcontra; exact hfresh o hob hcontra)
    · simp only [List.mem_singleton] at hr
      subst hr
      exact ⟨rfl, rfl, rfl, rfl, rfl, rfl, rfl, rfl, me, hme, rfl⟩

theorem foldlReconcileStep_fresh {sh : Nat} {now : String} {menu : List MenuEntry}
    {base : List Offering} :
    ∀ (L : List MenuEntry) (d : DB), (∀ me ∈ L, me ∈ menu) →
      FreshRowsActive sh now menu base d →
      FreshRowsActive sh now menu base (L.foldl (reconcileStep sh now) d) := by
  intro L
  induction L with
  | nil => exact fun d _ hP => hP
  | cons me L ih =>
    intro d hL hP
    rw [List.foldl_cons]
    exact ih _ (fun x hx => hL x (List.mem_cons_of_mem _ hx))
      (reconcileStep_fresh (hL me (List.mem_cons_self _ _)) hP)

theorem discontinueSweep_fresh {sh : Nat} {now : String} {menu : List MenuEntry}
    {base : List Offering} {d : DB}
    (hmenu : ∀ me ∈ menu, me ∈ d.menu_entries ∧ me.shop_id = sh)
    (hP : FreshRowsActive sh now menu base d) :
    FreshRowsActive sh now menu base (discontinueSweep d sh now) := by
  intro o'' h'' hfresh
  unfold discontinueSweep at h''
  simp only [List.mem_map] at h''
  obtain ⟨r, hr, hro⟩ := h''
  have hid : r.id = o''.id := by
    subst hro
    split <;> rfl
  have hPr := hP r hr (by intro o hob hcontra; exact hfresh o hob (hcontra.trans hid))
  obtain ⟨_, _, _, _, _, _, _, _, me, hme, hstr⟩ := hPr
  have hany : (d.menu_entries.any (fun x => x.shop_id == sh && x.strain_id == r.strain_id)) = true := by
    rw [List.any_eq_true]
    exact ⟨me, (hmenu me hme).1, by simp [(hmenu me hme).2, hstr]⟩
  have hcond : (r.shop_id == sh && r.status == "active" && !r.manual_status_lock &&
      !(d.menu_entries.any (fun x => x.shop_id == sh && x.strain_id == r.strain_id))) = false := by
    simp [hany]
  rw [hcond] at hro
  simp only [Bool.false_eq_true, if_false] at hro
  subst hro
  exact hP r hr (by intro o hob hcontra; exact hfresh o hob (hcontra.trans hid))

/-- C10 — Initial offering state: a row created for a (shop, strain) pair with
no existing Offering — whether by sync-from-menu or by the reconcile upsert
loop — starts with status "active", empty discontinuation
reason/since/until, `manual_lock = false`, and `last_seen`/`created_at`
stamped with the current time. -/
theorem initial_offering_state (db : DB) :
    (∀ (sh sid : Nat) (bt : String) (ic : Bool) (pc amt nts now : String),
      (∀ o ∈ db.shop_offerings, ¬(o.shop_id = sh ∧ o.strain_id = sid)) →
      ∃ row : Offering,
        (sync_offering_from_menu_entry db sh sid bt ic pc amt nts now).shop_offerings =
          db.shop_offerings ++ [row] ∧
        row.shop_id = sh ∧ row.strain_id = sid ∧ row.status = "active" ∧
        row.discontinued_reason = "" ∧ row.discontinued_since_utc = "" ∧
        row.discontinued_until_utc = "" ∧ row.manual_status_lock = false ∧
        row.last_seen_at_utc = now ∧ row.created_at = now) ∧
    (∀ (sh : Nat) (now : String),
      ∀ o' ∈ (reconcile_offerings_for_shop db sh now).shop_offerings,
        (∀ o ∈ db.shop_offerings, o.id ≠ o'.id) →
        o'.status = "active" ∧ o'.discontinued_reason = "" ∧
          o'.discontinued_since_utc = "" ∧ o'.discontinued_until_utc = "" ∧
          o'.manual_status_lock = false ∧ o'.last_seen_at_utc = now ∧ o'.created_at = now) := by
  constructor
  · intro sh sid bt ic pc amt nts now h
    have hany : (db.shop_offerings.any (fun o => o.shop_id == sh && o.strain_id == sid)) = false := by
      rw [List.any_eq_false]
      intro o ho
      simp [and_beq_false (h o ho)]
    unfold sync_offering_from_menu_entry syncOfferingUpsert
    rw [hany]
    simp only [Bool.false_eq_true, if_false]
    exact ⟨_, rfl, rfl, rfl, rfl, rfl, rfl, rfl, rfl, rfl, rfl⟩
  · intro sh now
    have hres : FreshRowsActive sh now (db.menu_entries.filter (fun me => me.shop_id == sh))
        db.shop_offerings (reconcile_offerings_for_shop db sh now) := by
      unfold reconcile_offerings_for_shop
      apply discontinueSweep_fresh
      · intro me hme
        have h1 := List.of_mem_filter hme
        have h2 := List.mem_of_mem_filter hme
        rw [foldlReconcileStep_menu_entries]
        exact ⟨h2, by simpa using h1⟩
      · apply foldlReconcileStep_fresh _ _ (fun me hme => hme)
        intro o' h' hfresh
        exact absurd rfl (hfresh o' h')
    intro o' h' hfresh
    obtain ⟨h1, h2, h3, h4, h5, h6, h7, _, _⟩ := hres o' h' (fun o ho => hfresh o ho)
    exact ⟨h1, h2, h3, h4, h5, h6, h7⟩

theorem initial_offering_state_witness :
    ∃ row : Offering,
      (sync_offering_from_menu_entry dbGuard 1 9 "sativa" false "€" "10" "" "t1").shop_offerings =
        dbGuard.shop_offerings ++ [row] ∧
      row.shop_id = 1 ∧ row.strain_id = 9 ∧ row.status = "active" ∧
      row.discontinued_reason = "" ∧ row.discontinued_since_utc = "" ∧
      row.discontinued_until_utc = "" ∧ row.manual_status_lock = false ∧
      row.last_seen_at_utc = "t1" ∧ row.created_at = "t1" :=
  (initial_offering_state dbGuard).1 1 9 "sativa" false "€" "10" "" "t1" (by decide)

/-! ## C3: manual lock protects status and discontinuation metadata -/

theorem lockFieldsEq_refl (o : Offering) : lockFieldsEq o o :=
  ⟨rfl, rfl, rfl, rfl, rfl⟩

theorem lockFieldsEq_comp {o o' o'' : Offering} (h1 : lockFieldsEq o o')
    (h2 : lockFieldsEq o' o'') : lockFieldsEq o o'' :=
  ⟨h2.1.trans h1.1, h2.2.1.trans h1.2.1, h2.2.2.1.trans h1.2.2.1,
    h2.2.2.2.1.trans h1.2.2.2.1, h2.2.2.2.2.trans h1.2.2.2.2⟩

theorem LockStable_refl {db : DB} (hwf : OffWF db) : LockStable db db :=
  fun o ho _ => ⟨⟨o, ho, rfl, lockFieldsEq_refl o⟩,
    fun o' ho' hid => by
      rw [nodupMapInj hwf.1 ho' ho hid]
      exact lockFieldsEq_refl o⟩

theorem LockStable_comp {a b c : DB} (h1 : LockStable a b) (h2 : LockStable b c) :
    LockStable a c := by
  intro o ho hlock
  obtain ⟨⟨o', ho', hid', hfe'⟩, hall⟩ := h1 o ho hlock
  have hlock' : o'.manual_status_lock = true := hfe'.2.2.2.2.trans hlock
  obtain ⟨⟨o'', ho'', hid'', hfe''⟩, hall'⟩ := h2 o' ho' hlock'
  refine ⟨⟨o'', ho'', hid''.trans hid', lockFieldsEq_comp hfe' hfe''⟩, ?_⟩
  intro x hx hxid
  exact lockFieldsEq_comp hfe' (hall' x hx (hxid.trans hid'.symm))

theorem syncOfferingUpsert_OffWF {d : DB} (hwf : OffWF d) (sh sid : Nat) (bt : String)
    (ic : Bool) (pc amt u nts now : String) :
    OffWF (syncOfferingUpsert d sh sid bt ic pc amt u nts now) := by
  unfold syncOfferingUpsert
  split
  · constructor
    · rw [mapIdOfPointwise (fun o => by split <;> rfl)]
      exact hwf.1
    · intro o' ho'
      simp only [List.mem_map] at ho'
      obtain ⟨r, hr, hro⟩ := ho'
      have : o'.id = r.id := by subst hro; split <;> rfl
      rw [this]
      exact hwf.2 r hr
  · constructor
    · have hfresh : d.next_offering_id ∉ d.shop_offerings.map (fun o => o.id) := by
        intro hmem
        obtain ⟨o, ho, hid⟩ := List.mem_map.mp hmem
        exact absurd hid (Nat.ne_of_lt (hwf.2 o ho))
      simp only [List.map_append, List.map_cons, List.map_nil]
      exact List.Nodup.append hwf.1 (List.nodup_singleton _)
        (by simpa [List.disjoint_singleton] using hfresh)
    · intro o' ho'
      rcases List.mem_append.mp ho' with hl | hr
      · exact Nat.lt_succ_of_lt (hwf.2 o' hl)
      · simp only [List.mem_singleton] at hr
        subst hr
        exact Nat.lt_succ_self _

theorem syncOfferingUpsert_LockStable {d : DB} (hwf : OffWF d) (sh sid : Nat) (bt : String)
    (ic : Bool) (pc amt u nts now : String) :
    LockStable d (syncOfferingUpsert d sh sid bt ic pc amt u nts now) := by
  intro o ho hlock
  constructor
  · unfold syncOfferingUpsert
    split
    · refine ⟨_, List.mem_map_of_mem _ ho, by split <;> rfl, ?_⟩
      split
      · exact ⟨by simp [hlock], by simp [hlock], by simp [hlock], by simp [hlock], rfl⟩
      · exact lockFieldsEq_refl o
    · exact ⟨o, List.mem_append_left _ ho, rfl, lockFieldsEq_refl o⟩
  · intro o' ho' hid
    unfold syncOfferingUpsert at ho'
    split at ho'
    · simp only [List.mem_map] at ho'
      obtain ⟨r, hr, hro⟩ := ho'
      have hrid : r.id = o.id := by
        rw [← hid]
        subst hro
        split <;> rfl
      have hre : r = o := nodupMapInj hwf.1 hr ho hrid
      subst hre
      subst hro
      split
      · exact ⟨by simp [hlock], by simp [hlock], by simp [hlock], by simp [hlock], rfl⟩
      · exact lockFieldsEq_refl r
    · rcases List.mem_append.mp ho' with hl | hnew
      · rw [nodupMapInj hwf.1 hl ho hid]
        exact lockFieldsEq_refl o
      · simp only [List.mem_singleton] at hnew
        have : o'.id = d.next_offering_id := by rw [hnew]
        exact absurd (this ▸ hid).symm (Nat.ne_of_lt (hwf.2 o ho))

theorem foldlReconcileStep_OffWF_LockStable (sh : Nat) (now : String) :
    ∀ (L : List MenuEntry) (d : DB), OffWF d →
      OffWF (L.foldl (reconcileStep sh now) d) ∧
        LockStable d (L.foldl (reconcileStep sh now) d) := by
  intro L
  induction L with
  | nil => exact fun d hwf => ⟨hwf, LockStable_refl hwf⟩
  | cons me L ih =>
    intro d hwf
    rw [List.foldl_cons]
    have hstep_wf : OffWF (reconcileStep sh now d me) :=
      syncOfferingUpsert_OffWF hwf sh me.strain_id me.base_type me.is_cali me.price_currency
        me.price_amount me.price_unit me.notes now
    have hstep_ls : LockStable d (reconcileStep sh now d me) :=
      syncOfferingUpsert_LockStable hwf sh me.strain_id me.base_type me.is_cali
        me.price_currency me.price_amount me.price_unit me.notes now
    obtain ⟨hwf', hls'⟩ := ih (reconcileStep sh now d me) hstep_wf
    exact ⟨hwf', LockStable_comp hstep_ls hls'⟩

theorem discontinueSweep_LockStable {d : DB} (hwf : OffWF d) (sh : Nat) (now : String) :
    LockStable d (discontinueSweep d sh now) := by
  intro o ho hlock
  have hco : (o.shop_id == sh && o.status == "active" && !o.manual_status_lock &&
      !(d.menu_entries.any (fun x => x.shop_id == sh && x.strain_id == o.strain_id))) = false := by
    simp [hlock]
  constructor
  · refine ⟨o, ?_, rfl, lockFieldsEq_refl o⟩
    unfold discontinueSweep
    exact List.mem_map.mpr ⟨o, ho, by simp [hco]⟩
  · intro o' ho' hid
    unfold discontinueSweep at ho'
    simp only [List.mem_map] at ho'
    obtain ⟨r, hr, hro⟩ := ho'
    have hrid : r.id = o.id := by
      rw [← hid]
      subst hro
      split <;> rfl
    have hre : r = o := nodupMapInj hwf.1 hr ho hrid
    subst hre
    rw [← hro, hco]
    simp only [Bool.false_eq_true, if_false]
    exact lockFieldsEq_refl r

/-- C3 — Lock protection: for every offering with `manual_lock = true`,
neither sync-from-menu nor reconcile changes its status, discontinuation
reason, or discontinuation timestamps, whatever the menu contains. -/
theorem manual_lock_protection (db : DB) (hwf : OffWF db) :
    (∀ (sh sid : Nat) (bt : String) (ic : Bool) (pc amt nts now : String),
      LockStable db (sync_offering_from_menu_entry db sh sid bt ic pc amt nts now)) ∧
    (∀ (sh : Nat) (now : String),
      LockStable db (reconcile_offerings_for_shop db sh now)) := by
  constructor
  · intro sh sid bt ic pc amt nts now
    exact syncOfferingUpsert_LockStable hwf sh sid bt ic pc amt DEFAULT_UNIT (pyStripS nts) now
  · intro sh now
    unfold reconcile_offerings_for_shop
    obtain ⟨hwf', hls'⟩ := foldlReconcileStep_OffWF_LockStable sh now
      (db.menu_entries.filter (fun me => me.shop_id == sh)) db hwf
    exact LockStable_comp hls' (discontinueSweep_LockStable hwf' sh now)

/-- A locked, manually discontinued offering for strain 1 at shop 1, whose
strain is back on the current menu. -/
def dbLock : DB :=
  ⟨[sampleStrain 1 "a" "A"], [sampleEntry 1 1 1],
    [⟨1, 1, 1, "sativa", false, "€", "10", "g", "", "discontinued", "manual", "t0", "", "t0",
      true, "t0", "t0"⟩], 2, 2, 2⟩

theorem manual_lock_protection_witness :
    LockStable dbLock (sync_offering_from_menu_entry dbLock 1 1 "indica" true "€" "12" "" "t1") ∧
    LockStable dbLock (reconcile_offerings_for_shop dbLock 1 "t1") :=
  ⟨(manual_lock_protection dbLock (by unfold OffWF; decide)).1 1 1 "indica" true "€" "12" "" "t1",
    (manual_lock_protection dbLock (by unfold OffWF; decide)).2 1 "t1"⟩

/-! ## C4: reconcile postcondition -/

theorem foldlReconcileStep_preserves {sh : Nat} {now : String} :
    ∀ (L : List MenuEntry) (d : DB) {o : Offering}, o ∈ d.shop_offerings →
      (∀ me ∈ L, (o.shop_id == sh && o.strain_id == me.strain_id) = false) →
      o ∈ (L.foldl (reconcileStep sh now) d).shop_offerings := by
  intro L
  induction L with
  | nil =>
    intro d o ho _
    exact ho
  | cons me L ih =>
    intro d o ho hc
    rw [List.foldl_cons]
    exact ih _ (syncOfferingUpsert_preserves _ _ _ _ _ _ _ _ _ _ ho
        (hc me (List.mem_cons_self _ _)))
      (fun x hx => hc x (List.mem_cons_of_mem _ hx))

theorem syncOfferingUpsert_establishes (d : DB) (sh sid : Nat) (bt : String) (ic : Bool)
    (pc amt u nts now : String) :
    MenuRowSynced sh sid now (syncOfferingUpsert d sh sid bt ic pc amt u nts now) := by
  unfold syncOfferingUpsert
  split
  · rename_i hany
    obtain ⟨r, hr, hrc⟩ := List.any_eq_true.mp hany
    have hshop : r.shop_id = sh := by
      have := (Bool.and_eq_true _ _).mp hrc
      simpa using this.1
    have hstr : r.strain_id = sid := by
      have := (Bool.and_eq_true _ _).mp hrc
      simpa using this.2
    refine ⟨_, List.mem_map_of_mem _ hr, ?_⟩
    rw [if_pos hrc]
    refine ⟨hshop, hstr, rfl, ?_⟩
    intro hl
    have hrl : r.manual_status_lock = false := hl
    show (if r.manual_status_lock = true then r.status else "active") = "active"
    rw [hrl]
    simp
  · exact ⟨_, List.mem_append_right _ (List.mem_singleton_self _), rfl, rfl, rfl, fun _ => rfl⟩

theorem reconcileStep_MenuRowSynced {sh σ : Nat} {now : String} {d : DB}
    (h : MenuRowSynced sh σ now d) (me : MenuEntry) :
    MenuRowSynced sh σ now (reconcileStep sh now d me) := by
  by_cases hσ : me.strain_id = σ
  · subst hσ
    exact syncOfferingUpsert_establishes d sh me.strain_id me.base_type me.is_cali
      me.price_currency me.price_amount me.price_unit me.notes now
  · obtain ⟨o', ho', h1, h2, h3, h4⟩ := h
    have hc : (o'.shop_id == sh && o'.strain_id == me.strain_id) = false :=
      and_beq_false (fun hand => hσ (hand.2.symm.trans h2))
    exact ⟨o', syncOfferingUpsert_preserves _ _ _ _ _ _ _ _ _ _ ho' hc, h1, h2, h3, h4⟩

theorem foldlReconcileStep_MenuRowSynced_preserve {sh σ : Nat} {now : String} :
    ∀ (L : List MenuEntry) (d : DB), MenuRowSynced sh σ now d →
      MenuRowSynced sh σ now (L.foldl (reconcileStep sh now) d) := by
  intro L
  induction L with
  | nil => exact fun d h => h
  | cons me L ih =>
    intro d h
    rw [List.foldl_cons]
    exact ih _ (reconcileStep_MenuRowSynced h me)

theorem foldlReconcileStep_MenuRowSynced {sh : Nat} {now : String} :
    ∀ (L : List MenuEntry) (d : DB), ∀ me ∈ L,
      MenuRowSynced sh me.strain_id now (L.foldl (reconcileStep sh now) d) := by
  intro L
  induction L with
  | nil => intro d me hme; exact absurd hme (List.not_mem_nil me)
  | cons me0 L ih =>
    intro d me hme
    rw [List.foldl_cons]
    rcases List.mem_cons.mp hme with he | hm
    · subst he
      exact foldlReconcileStep_MenuRowSynced_preserve L _
        (syncOfferingUpsert_establishes d sh me.strain_id me.base_type me.is_cali
          me.price_currency me.price_amount me.price_unit me.notes now)
    · exact ih _ me hm

theorem discontinueSweep_preserves_row {d : DB} {sh : Nat} {now : String} {o : Offering}
    (ho : o ∈ d.shop_offerings)
    (hc : (o.shop_id == sh && o.status == "active" && !o.manual_status_lock &&
      !(d.menu_entries.any (fun x => x.shop_id == sh && x.strain_id == o.strain_id))) = false) :
    o ∈ (discontinueSweep d sh now).shop_offerings := by
  unfold discontinueSweep
  exact List.mem_map.mpr ⟨o, ho, by simp [hc]⟩

/-- C4 — Reconcile postcondition: after reconcile, (i) every offering of the
shop that was active, unlocked and absent from the current menu is
discontinued with reason "missing from latest menu", `since = now` and the
until-hint cleared; (ii) every strain on the shop's current menu has an
offering stamped `last_seen = now` that is active unless manually locked;
(iii) absent offerings that are locked or already discontinued are completely
unchanged by the sweep. -/
theorem reconcile_postcondition (db : DB) (sh : Nat) (now : String) :
    (∀ o ∈ db.shop_offerings, o.shop_id = sh → o.status = "active" →
      o.manual_status_lock = false →
      (¬ ∃ me ∈ db.menu_entries, me.shop_id = sh ∧ me.strain_id = o.strain_id) →
      ∃ o' ∈ (reconcile_offerings_for_shop db sh now).shop_offerings,
        o'.id = o.id ∧ o'.status = "discontinued" ∧
          o'.discontinued_reason = "missing from latest menu" ∧
          o'.discontinued_since_utc = now ∧ o'.discontinued_until_utc = "") ∧
    (∀ me ∈ db.menu_entries, me.shop_id = sh →
      ∃ o' ∈ (reconcile_offerings_for_shop db sh now).shop_offerings,
        o'.shop_id = sh ∧ o'.strain_id = me.strain_id ∧ o'.last_seen_at_utc = now ∧
          (o'.manual_status_lock = false → o'.status = "active")) ∧
    (∀ o ∈ db.shop_offerings, o.shop_id = sh →
      (o.manual_status_lock = true ∨ o.status ≠ "active") →
      (¬ ∃ me ∈ db.menu_entries, me.shop_id = sh ∧ me.strain_id = o.strain_id) →
      o ∈ (reconcile_offerings_for_shop db sh now).shop_offerings) := by
  have habsentKeep : ∀ {o : Offering}, o ∈ db.shop_offerings → o.shop_id = sh →
      (¬ ∃ me ∈ db.menu_entries, me.shop_id = sh ∧ me.strain_id = o.strain_id) →
      o ∈ ((db.menu_entries.filter (fun me => me.shop_id == sh)).foldl
        (reconcileStep sh now) db).shop_offerings := by
    intro o ho hshop habs
    apply foldlReconcileStep_preserves _ db ho
    intro me hme
    apply and_beq_false
    rintro ⟨-, hstr⟩
    exact habs ⟨me, List.mem_of_mem_filter hme,
      by simpa using List.of_mem_filter hme, hstr.symm⟩
  have hentries : ((db.menu_entries.filter (fun me => me.shop_id == sh)).foldl
      (reconcileStep sh now) db).menu_entries = db.menu_entries :=
    foldlReconcileStep_menu_entries sh now _ db
  have hanyabs : ∀ {o : Offering},
      (¬ ∃ me ∈ db.menu_entries, me.shop_id = sh ∧ me.strain_id = o.strain_id) →
      (db.menu_entries.any (fun x => x.shop_id == sh && x.strain_id == o.strain_id)) = false := by
    intro o habs
    rw [List.any_eq_false]
    intro x hx
    rw [Bool.not_eq_true]
    apply and_beq_false
    rintro ⟨h1, h2⟩
    exact (habs ⟨x, hx, h1, h2⟩).elim
  refine ⟨?_, ?_, ?_⟩
  · intro o ho hshop hact hlock habs
    have ho1 := habsentKeep ho hshop habs
    unfold reconcile_offerings_for_shop discontinueSweep
    have hcond : (o.shop_id == sh && o.status == "active" && !o.manual_status_lock &&
        !(((db.menu_entries.filter (fun me => me.shop_id == sh)).foldl
          (reconcileStep sh now) db).menu_entries.any
            (fun x => x.shop_id == sh && x.strain_id == o.strain_id))) = true := by
      rw [hentries, hanyabs habs]
      simp [hshop, hact, hlock]
    refine ⟨_, List.mem_map_of_mem _ ho1, ?_⟩
    rw [if_pos hcond]
    exact ⟨rfl, rfl, rfl, rfl, rfl⟩
  · intro me hme hshop
    have hcur : me ∈ db.menu_entries.filter (fun x => x.shop_id == sh) :=
      List.mem_filter.mpr ⟨hme, by simp [hshop]⟩
    obtain ⟨o', ho', h1, h2, h3, h4⟩ :=
      foldlReconcileStep_MenuRowSynced (db.menu_entries.filter (fun x => x.shop_id == sh))
        db me hcur
    unfold reconcile_offerings_for_shop
    refine ⟨o', discontinueSweep_preserves_row ho' ?_, h1, h2, h3, h4⟩
    rw [hentries]
    have hany : (db.menu_entries.any
        (fun x => x.shop_id == sh && x.strain_id == o'.strain_id)) = true := by
      rw [List.any_eq_true]
      exact ⟨me, hme, by simp [hshop, h2]⟩
    simp [hany]
  · intro o ho hshop hlockdis habs
    have ho1 := habsentKeep ho hshop habs
    unfold reconcile_offerings_for_shop
    apply discontinueSweep_preserves_row ho1
    rcases hlockdis with hl | hs
    · simp [hl]
    · have : (o.status == "active") = false := by simpa using hs
      simp [this]

/-- Strains A/B/C at shop 1, menu currently lists only A: B and C must be
auto-discontinued, A refreshed. -/
theorem reconcile_postcondition_witness :
    (∃ o' ∈ (reconcile_offerings_for_shop dbRec 1 "t9").shop_offerings,
      o'.id = 2 ∧ o'.status = "discontinued" ∧
        o'.discontinued_reason = "missing from latest menu" ∧
        o'.discontinued_since_utc = "t9" ∧ o'.discontinued_until_utc = "") ∧
    (∃ o' ∈ (reconcile_offerings_for_shop dbRec 1 "t9").shop_offerings,
      o'.shop_id = 1 ∧ o'.strain_id = 1 ∧ o'.last_seen_at_utc = "t9" ∧
        (o'.manual_status_lock = false → o'.status = "active")) :=
  ⟨(reconcile_postcondition dbRec 1 "t9").1 (sampleOff 2 1 2 "active" false) (by decide)
      rfl rfl rfl (by decide),
    (reconcile_postcondition dbRec 1 "t9").2.1 (sampleEntry 1 1 1) (by decide) rfl⟩

/-! ## C8: deletion behaviour of offerings -/

theorem upsert_strain_offerings {db : DB} {name now : String} {db' : DB} {sid : Nat}
    (h : upsert_strain db name now = .ok (db', sid)) :
    db'.shop_offerings = db.shop_offerings := by
  by_cases hp : (normalise_strain_name name).1 = ""
  · exact absurd h (by simp [upsert_strain, hp])
  · cases hfind : findStrainByNorm db (normalise_strain_name name).1 with
    | some st =>
      simp only [upsert_strain, hp, if_false, hfind] at h
      injection h with h
      injection h with h _
      subst h
      rfl
    | none =>
      simp only [upsert_strain, hp, if_false, hfind] at h
      injection h with h
      injection h with h _
      subst h
      rfl

theorem upsertMenuEntryRow_offerings (db : DB) (sh sid : Nat) (bt : String) (ic : Bool)
    (pc amt nts now : String) :
    (upsertMenuEntryRow db sh sid bt ic pc amt nts now).shop_offerings =
      db.shop_offerings := by
  unfold upsertMenuEntryRow
  split <;> rfl

theorem foldlReconcileStep_survives {sh : Nat} {now : String} :
    ∀ (L : List MenuEntry) (d : DB) {o : Offering}, o ∈ d.shop_offerings →
      ∃ o' ∈ (L.foldl (reconcileStep sh now) d).shop_offerings, o'.id = o.id := by
  intro L
  induction L with
  | nil =>
    intro d o ho
    exact ⟨o, ho, rfl⟩
  | cons me L ih =>
    intro d o ho
    rw [List.foldl_cons]
    obtain ⟨o1, h1, hid1⟩ := syncOfferingUpsert_survives d sh me.strain_id me.base_type
      me.is_cali me.price_currency me.price_amount me.price_unit me.notes now ho
    obtain ⟨o2, h2, hid2⟩ := ih _ h1
    exact ⟨o2, h2, hid2.trans hid1⟩

theorem discontinueSweep_survives {d : DB} {sh : Nat} {now : String} {o : Offering}
    (ho : o ∈ d.shop_offerings) :
    ∃ o' ∈ (discontinueSweep d sh now).shop_offerings, o'.id = o.id := by
  unfold discontinueSweep
  exact ⟨_, List.mem_map_of_mem _ ho, by split <;> rfl⟩

theorem reconcile_survives {db : DB} {sh : Nat} {now : String} {o : Offering}
    (ho : o ∈ db.shop_offerings) :
    ∃ o' ∈ (reconcile_offerings_for_shop db sh now).shop_offerings, o'.id = o.id := by
  unfold reconcile_offerings_for_shop
  obtain ⟨o1, h1, hid1⟩ := foldlReconcileStep_survives _ db ho
  obtain ⟨o2, h2, hid2⟩ := discontinueSweep_survives h1
  exact ⟨o2, h2, hid2.trans hid1⟩

/-- Characterisation of what the rename/merge does to a given offering row: it
survives with its id, unless it references the merge source while its shop
already has an offering for the merge target, in which case it is deleted. -/
theorem rename_or_merge_offering_char (db : DB) (sid : Nat) (nm : String) :
    ∀ o ∈ db.shop_offerings,
      (∃ o' ∈ (rename_or_merge_strain_id db sid nm).2.shop_offerings, o'.id = o.id) ∨
      (o.strain_id = sid ∧ ∃ o2 ∈ db.shop_offerings,
        o2.shop_id = o.shop_id ∧ o2.strain_id = (rename_or_merge_strain_id db sid nm).1.2.1 ∧
        o2.strain_id ≠ sid) := by
  intro o ho
  by_cases hp : (normalise_strain_name nm).1 = ""
  · exact Or.inl ⟨o, by simpa [rename_or_merge_strain_id, hp] using ho, rfl⟩
  · cases hfind : findStrainById db sid with
    | none => exact Or.inl ⟨o, by simpa [rename_or_merge_strain_id, hp, hfind] using ho, rfl⟩
    | some cur =>
      by_cases hnoop : (normalise_strain_name nm).1 = cur.name_normalised ∧
          (normalise_strain_name nm).2 = cur.name_display
      · have hp' : ¬(cur.name_normalised = "") := by
          rw [← hnoop.1]
          exact hp
        exact Or.inl ⟨o,
          by simpa [rename_or_merge_strain_id, hp, hp', hfind, hnoop] using ho, rfl⟩
      · cases hbyn : findStrainByNorm db (normalise_strain_name nm).1 with
        | none =>
          exact Or.inl ⟨o,
            by simpa [rename_or_merge_strain_id, hp, hfind, hnoop, hbyn] using ho, rfl⟩
        | some existing =>
          by_cases hne : existing.id ≠ sid
          · have hres : (rename_or_merge_strain_id db sid nm).2.shop_offerings =
                (db.shop_offerings.filter
                  (fun x => !offeringCollides db.shop_offerings sid existing.id x)).map
                  (fun x => if x.strain_id == sid then { x with strain_id := existing.id }
                    else x) := by
              simp [rename_or_merge_strain_id, hp, hfind, hnoop, hbyn, hne]
            have hres1 : (rename_or_merge_strain_id db sid nm).1.2.1 = existing.id := by
              simp [rename_or_merge_strain_id, hp, hfind, hnoop, hbyn, hne]
            by_cases hcol : offeringCollides db.shop_offerings sid existing.id o = true
            · right
              obtain ⟨hsrc, hex⟩ := (Bool.and_eq_true _ _).mp hcol
              obtain ⟨o2, ho2, ho2c⟩ := List.any_eq_true.mp hex
              obtain ⟨h1, h2⟩ := (Bool.and_eq_true _ _).mp ho2c
              have h2' : o2.strain_id = existing.id := by simpa using h2
              refine ⟨by simpa using hsrc, o2, ho2, by simpa using h1, ?_, ?_⟩
              · rw [hres1]
                exact h2'
              · rw [h2']
                exact hne
            · left
              refine ⟨(if (o.strain_id == sid) = true then { o with strain_id := existing.id }
                else o), ?_, ?_⟩
              · rw [hres]
                exact List.mem_map_of_mem _ (List.mem_filter.mpr ⟨ho, by simp [hcol]⟩)
              · split <;> rfl
          · exact Or.inl ⟨o,
              by simpa [rename_or_merge_strain_id, hp, hfind, hnoop, hbyn, hne] using ho, rfl⟩

/-- C8 counterexample — offerings are not "never deleted": in `dbMerge`, the
offering row with id 1 (shop 1, source strain 1) exists before the merge of
strain 1 into strain 2, and no row with id 1 exists afterwards (shop 1
already had offering id 2 for the target strain, so the source row was
deleted). -/
theorem offering_deleted_by_merge :
    (dbMerge.shop_offerings.any (fun o => o.id == 1)) = true ∧
    ((rename_or_merge_strain_id dbMerge 1 "Tropicana Cherry").2.shop_offerings.any
      (fun o => o.id == 1)) = false := by
  decide

/-- Offering survival through the post-validation edit path: a row either
survives with its id, or its shop already had an offering for a different
strain (the merge target of the rename performed by the edit). -/
theorem update_menu_entry_core_offering_char (db : DB) (sh eid : Nat) (sn bt : String)
    (ic : Bool) (pc amt nts now : String) :
    ∀ o ∈ db.shop_offerings,
      (∃ o' ∈ (update_menu_entry_core db sh eid sn bt ic pc amt nts now).2.shop_offerings,
        o'.id = o.id) ∨
      (∃ o2 ∈ db.shop_offerings, o2.shop_id = o.shop_id ∧ o2.strain_id ≠ o.strain_id) := by
  intro o ho
  cases hfind : db.menu_entries.find? (fun me => me.id == eid && me.shop_id == sh) with
  | none =>
    exact Or.inl ⟨o, by simpa [update_menu_entry_core, hfind] using ho, rfl⟩
  | some entryRow =>
    cases hsid : findStrainById db entryRow.strain_id with
    | none =>
      exact Or.inl ⟨o, by simpa [update_menu_entry_core, hfind, hsid] using ho, rfl⟩
    | some curStrain =>
      by_cases hblank : (normalise_strain_name sn).1 = ""
      · exact Or.inl ⟨o, by simpa [update_menu_entry_core, hfind, hsid, hblank] using ho, rfl⟩
      · have hsurv : ∀ o1 ∈
            (rename_or_merge_strain_id db entryRow.strain_id sn).2.shop_offerings,
            ∃ o' ∈ (update_menu_entry_core db sh eid sn bt ic pc amt
              nts now).2.shop_offerings, o'.id = o1.id := by
          intro o1 ho1
          simp only [update_menu_entry_core, hfind, hsid, hblank, if_false]
          split
          · exact ⟨o1, ho1, rfl⟩
          · split
            · exact ⟨o1, ho1, rfl⟩
            · split
              · exact syncOfferingUpsert_survives _ _ _ _ _ _ _ _ _ _ ho1
              · exact syncOfferingUpsert_survives _ _ _ _ _ _ _ _ _ _ ho1
        rcases rename_or_merge_offering_char db entryRow.strain_id sn o ho with
          h | ⟨hsrc, o2, ho2, h1, h2, h3⟩
        · obtain ⟨o1, ho1, hid1⟩ := h
          obtain ⟨o', h', hid'⟩ := hsurv o1 ho1
          exact Or.inl ⟨o', h', hid'.trans hid1⟩
        · right
          refine ⟨o2, ho2, h1, ?_⟩
          rw [hsrc]
          exact h3

/-- C8 amended — no core operation deletes an Offering row, except the merge
path of rename/merge (also when reached through a menu-entry edit): a row can
disappear only when it references the merge source strain while its shop
already has an offering for the merge target. -/
theorem offerings_never_deleted_amended (db : DB) :
    (∀ sh eid : Nat, (delete_menu_entry_by_id db sh eid).shop_offerings = db.shop_offerings) ∧
    (∀ (sh sid : Nat) (bt : String) (ic : Bool) (pc amt nts now : String),
      ∀ o ∈ db.shop_offerings,
      ∃ o' ∈ (sync_offering_from_menu_entry db sh sid bt ic pc amt nts now).shop_offerings,
        o'.id = o.id) ∧
    (∀ (sh : Nat) (sn bt : String) (ic : Bool) (pc pat nts now : String),
      ∀ o ∈ db.shop_offerings,
      ∃ o' ∈ (add_or_update_menu_entry db sh sn bt ic pc pat nts now).2.shop_offerings,
        o'.id = o.id) ∧
    (∀ (sh : Nat) (now : String), ∀ o ∈ db.shop_offerings,
      ∃ o' ∈ (reconcile_offerings_for_shop db sh now).shop_offerings, o'.id = o.id) ∧
    (∀ (sh : Nat) (ae am : Bool) (now : String), ∀ o ∈ db.shop_offerings,
      ∃ o' ∈ (finish_menu db sh ae am now).2.shop_offerings, o'.id = o.id) ∧
    (∀ (sh sid : Nat) (status reason untl now : String) (lock : Bool) (db' : DB),
      set_offering_status db sh sid status reason untl lock now = .ok db' →
      ∀ o ∈ db.shop_offerings, ∃ o' ∈ db'.shop_offerings, o'.id = o.id) ∧
    (∀ (sid : Nat) (nm : String), ∀ o ∈ db.shop_offerings,
      (∃ o' ∈ (rename_or_merge_strain_id db sid nm).2.shop_offerings, o'.id = o.id) ∨
      (o.strain_id = sid ∧ ∃ o2 ∈ db.shop_offerings,
        o2.shop_id = o.shop_id ∧ o2.strain_id = (rename_or_merge_strain_id db sid nm).1.2.1 ∧
        o2.strain_id ≠ sid)) ∧
    (∀ (sh eid : Nat) (sn bt : String) (ic : Bool) (pc pat nts now : String),
      ∀ o ∈ db.shop_offerings,
      (∃ o' ∈ (update_menu_entry_by_id db sh eid sn bt ic pc pat nts now).2.shop_offerings,
        o'.id = o.id) ∨
      (∃ o2 ∈ db.shop_offerings, o2.shop_id = o.shop_id ∧ o2.strain_id ≠ o.strain_id)) := by
  refine ⟨fun sh eid => rfl, ?_, ?_, ?_, ?_, ?_, ?_, ?_⟩
  · intro sh sid bt ic pc amt nts now o ho
    exact syncOfferingUpsert_survives db sh sid bt ic pc amt DEFAULT_UNIT (pyStripS nts) now ho
  · intro sh sn bt ic pc pat nts now o ho
    by_cases hbt : (VALID_BASE_TYPES.contains (pyLowerS (pyStripS bt))) = true
    · have hbt' : pyLowerS (pyStripS bt) ∈ VALID_BASE_TYPES := by simpa using hbt
      by_cases hpc : (SUPPORTED_CURRENCIES.contains
          (pyStripS (if pc = "" then DEFAULT_CURRENCY else pc))) = true
      · have hpc' : pyStripS (if pc = "" then DEFAULT_CURRENCY else pc) ∈
            SUPPORTED_CURRENCIES := by simpa using hpc
        cases hpa : parse_price_amount pat with
        | error e =>
          exact ⟨o, by simpa [add_or_update_menu_entry, hbt', hpc', hpa] using ho, rfl⟩
        | ok amt =>
          cases hus : upsert_strain db sn now with
          | error e =>
            exact ⟨o, by simpa [add_or_update_menu_entry, hbt', hpc', hpa, hus] using ho, rfl⟩
          | ok p =>
            have hres : (add_or_update_menu_entry db sh sn bt ic pc pat nts now).2 =
                sync_offering_from_menu_entry
                  (upsertMenuEntryRow p.1 sh p.2 (pyLowerS (pyStripS bt)) ic
                    (pyStripS (if pc = "" then DEFAULT_CURRENCY else pc)) amt
                    (pyStripS nts) now)
                  sh p.2 (pyLowerS (pyStripS bt)) ic
                  (pyStripS (if pc = "" then DEFAULT_CURRENCY else pc)) amt
                  (pyStripS nts) now := by
              simp [add_or_update_menu_entry, hbt', hpc', hpa, hus]
            rw [hres]
            have ho1 : o ∈ (upsertMenuEntryRow p.1 sh p.2 (pyLowerS (pyStripS bt)) ic
                (pyStripS (if pc = "" then DEFAULT_CURRENCY else pc)) amt
                (pyStripS nts) now).shop_offerings := by
              rw [upsertMenuEntryRow_offerings, upsert_strain_offerings hus]
              exact ho
            exact syncOfferingUpsert_survives _ _ _ _ _ _ _ _ _ _ ho1
      · have hpc'' : ¬(pyStripS (if pc = "" then DEFAULT_CURRENCY else pc) ∈
            SUPPORTED_CURRENCIES) := by simpa using hpc
        exact ⟨o, by simpa [add_or_update_menu_entry, hbt', hpc''] using ho, rfl⟩
    · have hbt'' : ¬(pyLowerS (pyStripS bt) ∈ VALID_BASE_TYPES) := by simpa using hbt
      exact ⟨o, by simpa [add_or_update_menu_entry, hbt''] using ho, rfl⟩
  · intro sh now o ho
    exact reconcile_survives ho
  · intro sh ae am now o ho
    simp only [finish_menu]
    by_cases h1 : count_menu_entries_for_shop db sh = 0 ∧
        count_active_offerings_for_shop db sh > 0 ∧ ¬ae = true
    · rw [if_pos h1]
      exact ⟨o, ho, rfl⟩
    · rw [if_neg h1]
      by_cases h2 : count_menu_entries_for_shop db sh > 0 ∧
          count_active_unlocked_offerings_for_shop db sh ≥ 5 ∧
          count_would_auto_discontinue_for_shop db sh =
            count_active_unlocked_offerings_for_shop db sh ∧ ¬am = true
      · rw [if_pos h2]
        exact ⟨o, ho, rfl⟩
      · rw [if_neg h2]
        exact reconcile_survives ho
  · intro sh sid status reason untl now lock db' h o ho
    unfold set_offering_status at h
    split at h
    · exact absurd h (by simp)
    · split at h <;>
      · injection h with h
        subst h
        exact ⟨_, List.mem_map_of_mem _ ho, by split <;> rfl⟩
  · intro sid nm o ho
    exact rename_or_merge_offering_char db sid nm o ho
  · intro sh eid sn bt ic pc pat nts now o ho
    by_cases hbt : (VALID_BASE_TYPES.contains (pyLowerS (pyStripS bt))) = true
    · have hbt' : pyLowerS (pyStripS bt) ∈ VALID_BASE_TYPES := by simpa using hbt
      by_cases hpc : (SUPPORTED_CURRENCIES.contains
          (pyStripS (if pc = "" then DEFAULT_CURRENCY else pc))) = true
      · have hpc' : pyStripS (if pc = "" then DEFAULT_CURRENCY else pc) ∈
            SUPPORTED_CURRENCIES := by simpa using hpc
        cases hpa : parse_price_amount pat with
        | error e =>
          exact Or.inl ⟨o,
            by simpa [update_menu_entry_by_id, hbt', hpc', hpa] using ho, rfl⟩
        | ok amt =>
          have hres : (update_menu_entry_by_id db sh eid sn bt ic pc pat nts now).2 =
              (update_menu_entry_core db sh eid sn (pyLowerS (pyStripS bt)) ic
                (pyStripS (if pc = "" then DEFAULT_CURRENCY else pc)) amt
                (pyStripS nts) now).2 := by
            simp [update_menu_entry_by_id, hbt', hpc', hpa]
          rw [hres]
          exact update_menu_entry_core_offering_char db sh eid sn (pyLowerS (pyStripS bt)) ic
            (pyStripS (if pc = "" then DEFAULT_CURRENCY else pc)) amt (pyStripS nts) now o ho
      · have hpc'' : ¬(pyStripS (if pc = "" then DEFAULT_CURRENCY else pc) ∈
            SUPPORTED_CURRENCIES) := by simpa using hpc
        exact Or.inl ⟨o, by simpa [update_menu_entry_by_id, hbt', hpc''] using ho, rfl⟩
    · have hbt'' : ¬(pyLowerS (pyStripS bt) ∈ VALID_BASE_TYPES) := by simpa using hbt
      exact Or.inl ⟨o, by simpa [update_menu_entry_by_id, hbt''] using ho, rfl⟩

theorem offerings_never_deleted_amended_witness :
    (∃ o' ∈ (reconcile_offerings_for_shop dbMerge 1 "t1").shop_offerings,
      o'.id = (sampleOff 1 1 1 "active" false).id) ∧
    ((∃ o' ∈ (rename_or_merge_strain_id dbMerge 1 "Tropicana Cherry").2.shop_offerings,
        o'.id = (sampleOff 3 2 1 "active" false).id) ∨
      ((sampleOff 3 2 1 "active" false).strain_id = 1 ∧ ∃ o2 ∈ dbMerge.shop_offerings,
        o2.shop_id = (sampleOff 3 2 1 "active" false).shop_id ∧
        o2.strain_id = (rename_or_merge_strain_id dbMerge 1 "Tropicana Cherry").1.2.1 ∧
        o2.strain_id ≠ 1)) :=
  ⟨(offerings_never_deleted_amended dbMerge).2.2.2.1 1 "t1"
      (sampleOff 1 1 1 "active" false) (by decide),
    (offerings_never_deleted_amended dbMerge).2.2.2.2.2.2.1 1 "Tropicana Cherry"
      (sampleOff 3 2 1 "active" false) (by decide)⟩

/-! ## C1: merge correctness -/

/-- In the merge branch (target strain `T` holds the new key, source has id
`sid`), the result and the three updated tables of `rename_or_merge_strain_id`
are given by the collision-delete / repoint / display-overwrite expressions of
the source. -/
theorem rename_merge_branch (db : DB) (sid : Nat) (new_name : String)
    (S T : Strain) (nn nd : String)
    (hnorm : normalise_strain_name new_name = (nn, nd))
    (hnn : nn ≠ "")
    (hS : S ∈ db.strains) (hSid : S.id = sid)
    (hT : T ∈ db.strains) (hTnn : T.name_normalised = nn)
    (hTS : T.id ≠ sid)
    (hids : (db.strains.map (fun st => st.id)).Nodup)
    (hnorms : (db.strains.map (fun st => st.name_normalised)).Nodup) :
    (rename_or_merge_strain_id db sid new_name).1 =
      (true, T.id, "Merged into existing strain: " ++ nd) ∧
    (rename_or_merge_strain_id db sid new_name).2.strains =
      (db.strains.filter (fun st => !(st.id == sid))).map
        (fun st => if st.id == T.id then { st with name_display := nd } else st) ∧
    (rename_or_merge_strain_id db sid new_name).2.menu_entries =
      (db.menu_entries.filter (fun me => !entryCollides db.menu_entries sid T.id me)).map
        (fun me => if me.strain_id == sid then { me with strain_id := T.id } else me) ∧
    (rename_or_merge_strain_id db sid new_name).2.shop_offerings =
      (db.shop_offerings.filter (fun o => !offeringCollides db.shop_offerings sid T.id o)).map
        (fun o => if o.strain_id == sid then { o with strain_id := T.id } else o) := by
  have hfindid : findStrainById db sid = some S := by
    unfold findStrainById
    rw [← hSid]
    exact find?_key_eq hids hS
  have hfindnorm : findStrainByNorm db nn = some T := by
    unfold findStrainByNorm
    rw [← hTnn]
    exact find?_key_eq hnorms hT
  have hSnorm_ne : S.name_normalised ≠ nn := by
    intro h
    exact hTS ((nodupMapInj hnorms hT hS (hTnn.trans h.symm)) ▸ hSid)
  have hnoop : ¬(nn = S.name_normalised ∧ nd = S.name_display) :=
    fun hand => hSnorm_ne hand.1.symm
  refine ⟨?_, ?_, ?_, ?_⟩ <;>
    simp [rename_or_merge_strain_id, hnorm, hnn, hfindid, hfindnorm, hnoop, hTS]

/-- C1 — Merge correctness: when the new name's matching key belongs to
another strain `T` (the target) while strain `S` (the source, id `sid`) is
renamed, the call returns `T`'s id with the merged outcome, `S`'s row is
gone, every menu entry and offering that referenced `S` is repointed to `T`
unless its shop already had a row for `T` (then the source row is deleted
and the target's row wins), nothing references `S` any more, rows not
referencing `S` are untouched, and `T`'s display becomes the freshly
normalised display. -/
theorem merge_correctness (db : DB) (sid : Nat) (new_name : String)
    (S T : Strain) (nn nd : String)
    (hnorm : normalise_strain_name new_name = (nn, nd))
    (hnn : nn ≠ "")
    (hS : S ∈ db.strains) (hSid : S.id = sid)
    (hT : T ∈ db.strains) (hTnn : T.name_normalised = nn)
    (hTS : T.id ≠ sid)
    (hids : (db.strains.map (fun st => st.id)).Nodup)
    (hnorms : (db.strains.map (fun st => st.name_normalised)).Nodup)
    (heids : (db.menu_entries.map (fun me => me.id)).Nodup)
    (hoids : (db.shop_offerings.map (fun o => o.id)).Nodup) :
    (rename_or_merge_strain_id db sid new_name).1 =
      (true, T.id, "Merged into existing strain: " ++ nd) ∧
    (∀ st ∈ (rename_or_merge_strain_id db sid new_name).2.strains, st.id ≠ sid) ∧
    (∃ st ∈ (rename_or_merge_strain_id db sid new_name).2.strains,
      st.id = T.id ∧ st.name_display = nd) ∧
    (∀ me ∈ db.menu_entries, me.strain_id ≠ sid →
      me ∈ (rename_or_merge_strain_id db sid new_name).2.menu_entries) ∧
    (∀ me ∈ db.menu_entries, me.strain_id = sid →
      ((∃ me2 ∈ db.menu_entries, me2.shop_id = me.shop_id ∧ me2.strain_id = T.id) →
        ∀ me' ∈ (rename_or_merge_strain_id db sid new_name).2.menu_entries,
          me'.id ≠ me.id) ∧
      ((¬ ∃ me2 ∈ db.menu_entries, me2.shop_id = me.shop_id ∧ me2.strain_id = T.id) →
        { me with strain_id := T.id } ∈
          (rename_or_merge_strain_id db sid new_name).2.menu_entries)) ∧
    (∀ me' ∈ (rename_or_merge_strain_id db sid new_name).2.menu_entries,
      me'.strain_id ≠ sid) ∧
    (∀ o ∈ db.shop_offerings, o.strain_id ≠ sid →
      o ∈ (rename_or_merge_strain_id db sid new_name).2.shop_offerings) ∧
    (∀ o ∈ db.shop_offerings, o.strain_id = sid →
      ((∃ o2 ∈ db.shop_offerings, o2.shop_id = o.shop_id ∧ o2.strain_id = T.id) →
        ∀ o' ∈ (rename_or_merge_strain_id db sid new_name).2.shop_offerings,
          o'.id ≠ o.id) ∧
      ((¬ ∃ o2 ∈ db.shop_offerings, o2.shop_id = o.shop_id ∧ o2.strain_id = T.id) →
        { o with strain_id := T.id } ∈
          (rename_or_merge_strain_id db sid new_name).2.shop_offerings)) ∧
    (∀ o' ∈ (rename_or_merge_strain_id db sid new_name).2.shop_offerings,
      o'.strain_id ≠ sid) := by
  obtain ⟨hr1, hrstr, hrme, hroff⟩ :=
    rename_merge_branch db sid new_name S T nn nd hnorm hnn hS hSid hT hTnn hTS hids hnorms
  refine ⟨hr1, ?_, ?_, ?_, ?_, ?_, ?_, ?_, ?_⟩
  · rw [hrstr]
    intro st hst
    obtain ⟨st0, hst0, himg⟩ := List.mem_map.mp hst
    have hid0 : st.id = st0.id := by
      subst himg
      split <;> rfl
    have := List.of_mem_filter hst0
    rw [hid0]
    simpa using this
  · rw [hrstr]
    refine ⟨_, List.mem_map_of_mem _ (List.mem_filter.mpr ⟨hT, by simpa using hTS⟩), ?_⟩
    rw [if_pos (by simp)]
    exact ⟨rfl, rfl⟩
  · rw [hrme]
    intro me hme hne
    have hcol : entryCollides db.menu_entries sid T.id me = false := by
      unfold entryCollides
      simp [hne]
    refine List.mem_map.mpr ⟨me, List.mem_filter.mpr ⟨hme, by simp [hcol]⟩, ?_⟩
    rw [if_neg (by simpa using hne)]
  · intro me hme hstr
    constructor
    · rintro ⟨me2, hme2, hshop2, hstr2⟩ me' hme' hid'
      rw [hrme] at hme'
      obtain ⟨me0, hme0, himg⟩ := List.mem_map.mp hme'
      have hid0 : me'.id = me0.id := by
        subst himg
        split <;> rfl
      have hme0mem := List.mem_of_mem_filter hme0
      have hme0eq : me0 = me := nodupMapInj heids hme0mem hme (by rw [← hid0, hid'])
      have hfilt := List.of_mem_filter hme0
      rw [hme0eq] at hfilt
      have hcol : entryCollides db.menu_entries sid T.id me = true := by
        unfold entryCollides
        rw [List.any_eq_true.mpr ⟨me2, hme2, by simp [hshop2, hstr2]⟩]
        simp [hstr]
      rw [hcol] at hfilt
      exact absurd hfilt (by simp)
    · intro hnex
      rw [hrme]
      have hany : (db.menu_entries.any
          (fun me2 => me2.shop_id == me.shop_id && me2.strain_id == T.id)) = false := by
        rw [List.any_eq_false]
        intro me2 hme2
        rw [Bool.not_eq_true]
        apply and_beq_false
        rintro ⟨h1, h2⟩
        exact hnex ⟨me2, hme2, h1, h2⟩
      have hcol : entryCollides db.menu_entries sid T.id me = false := by
        unfold entryCollides
        rw [hany]
        simp
      refine List.mem_map.mpr ⟨me, List.mem_filter.mpr ⟨hme, by simp [hcol]⟩, ?_⟩
      rw [if_pos (by simpa using hstr)]
  · rw [hrme]
    intro me' hme'
    obtain ⟨me0, hme0, himg⟩ := List.mem_map.mp hme'
    subst himg
    split
    · simpa using hTS
    · rename_i hc
      simpa using hc
  · rw [hroff]
    intro o ho hne
    have hcol : offeringCollides db.shop_offerings sid T.id o = false := by
      unfold offeringCollides
      simp [hne]
    refine List.mem_map.mpr ⟨o, List.mem_filter.mpr ⟨ho, by simp [hcol]⟩, ?_⟩
    rw [if_neg (by simpa using hne)]
  · intro o ho hstr
    constructor
    · rintro ⟨o2, ho2, hshop2, hstr2⟩ o' ho' hid'
      rw [hroff] at ho'
      obtain ⟨o0, ho0, himg⟩ := List.mem_map.mp ho'
      have hid0 : o'.id = o0.id := by
        subst himg
        split <;> rfl
      have ho0mem := List.mem_of_mem_filter ho0
      have ho0eq : o0 = o := nodupMapInj hoids ho0mem ho (by rw [← hid0, hid'])
      have hfilt := List.of_mem_filter ho0
      rw [ho0eq] at hfilt
      have hcol : offeringCollides db.shop_offerings sid T.id o = true := by
        unfold offeringCollides
        rw [List.any_eq_true.mpr ⟨o2, ho2, by simp [hshop2, hstr2]⟩]
        simp [hstr]
      rw [hcol] at hfilt
      exact absurd hfilt (by simp)
    · intro hnex
      rw [hroff]
      have hany : (db.shop_offerings.any
          (fun o2 => o2.shop_id == o.shop_id && o2.strain_id == T.id)) = false := by
        rw [List.any_eq_false]
        intro o2 ho2
        rw [Bool.not_eq_true]
        apply and_beq_false
        rintro ⟨h1, h2⟩
        exact hnex ⟨o2, ho2, h1, h2⟩
      have hcol : offeringCollides db.shop_offerings sid T.id o = false := by
        unfold offeringCollides
        rw [hany]
        simp
      refine List.mem_map.mpr ⟨o, List.mem_filter.mpr ⟨ho, by simp [hcol]⟩, ?_⟩
      rw [if_pos (by simpa using hstr)]
  · rw [hroff]
    intro o' ho'
    obtain ⟨o0, ho0, himg⟩ := List.mem_map.mp ho'
    subst himg
    split
    · simpa using hTS
    · rename_i hc
      simpa using hc

theorem merge_correctness_witness :
    (rename_or_merge_strain_id dbMerge 1 "Tropicana Cherry").1 =
      (true, 2, "Merged into existing strain: " ++ "Tropicana Cherry") ∧
    (∀ st ∈ (rename_or_merge_strain_id dbMerge 1 "Tropicana Cherry").2.strains, st.id ≠ 1) ∧
    (∃ st ∈ (rename_or_merge_strain_id dbMerge 1 "Tropicana Cherry").2.strains,
      st.id = 2 ∧ st.name_display = "Tropicana Cherry") := by
  have h := merge_correctness dbMerge 1 "Tropicana Cherry"
    (sampleStrain 1 "tropicana chery" "Tropicana Chery")
    (sampleStrain 2 "tropicana cherry" "Tropicana Cherry")
    "tropicana cherry" "Tropicana Cherry"
    (by decide) (by decide) (by decide) rfl (by decide) rfl (by decide)
    (by decide) (by decide) (by decide) (by decide)
  exact ⟨h.1, h.2.1, h.2.2.1⟩

/-! ## C6: duplicate-merge-on-edit -/

/-- C6 — Duplicate-merge-on-edit: if shop `z` has menu entries `E1` (strain
`S1`) and `E2` (strain `S2`) with different matching keys, editing `E2`'s
strain name to one that normalises to `S1`'s key succeeds without a
uniqueness error, reports the duplicate-removed outcome, deletes `E2`, leaves
`E1` as the only entry of shop `z` for `S1`, and leaves no entry referencing
`S2`. -/
theorem duplicate_merge_on_edit (db : DB) (z : Nat) (E1 E2 : MenuEntry) (S1 S2 : Strain)
    (new_name base_type : String) (ic : Bool) (pc pat nts now nd amt : String)
    (hbt : VALID_BASE_TYPES.contains (pyLowerS (pyStripS base_type)) = true)
    (hpc : SUPPORTED_CURRENCIES.contains
      (pyStripS (if pc = "" then DEFAULT_CURRENCY else pc)) = true)
    (hpa : parse_price_amount pat = .ok amt)
    (hE1 : E1 ∈ db.menu_entries) (hE1shop : E1.shop_id = z) (hE1str : E1.strain_id = S1.id)
    (hE2 : E2 ∈ db.menu_entries) (hE2shop : E2.shop_id = z) (hE2str : E2.strain_id = S2.id)
    (hS1 : S1 ∈ db.strains) (hS2 : S2 ∈ db.strains) (hS12 : S1.id ≠ S2.id)
    (hnorm : normalise_strain_name new_name = (S1.name_normalised, nd))
    (hnn : S1.name_normalised ≠ "")
    (hids : (db.strains.map (fun st => st.id)).Nodup)
    (hnorms : (db.strains.map (fun st => st.name_normalised)).Nodup)
    (heids : (db.menu_entries.map (fun me => me.id)).Nodup)
    (hpairs : (db.menu_entries.map (fun me => (me.shop_id, me.strain_id))).Nodup) :
    (update_menu_entry_by_id db z E2.id new_name base_type ic pc pat nts now).1.1 = true ∧
    (update_menu_entry_by_id db z E2.id new_name base_type ic pc pat nts now).1.2 =
      ("Merged into existing strain: " ++ nd) ++
        ". Note: merged with existing shop entry; duplicate removed." ∧
    E1 ∈ (update_menu_entry_by_id db z E2.id new_name base_type ic pc pat nts
      now).2.menu_entries ∧
    (∀ me' ∈ (update_menu_entry_by_id db z E2.id new_name base_type ic pc pat nts
        now).2.menu_entries, me'.shop_id = z → me'.strain_id = S1.id → me' = E1) ∧
    (∀ me' ∈ (update_menu_entry_by_id db z E2.id new_name base_type ic pc pat nts
        now).2.menu_entries, me'.id ≠ E2.id) ∧
    (∀ me' ∈ (update_menu_entry_by_id db z E2.id new_name base_type ic pc pat nts
        now).2.menu_entries, me'.strain_id ≠ S2.id) := by
  have hbt' : pyLowerS (pyStripS base_type) ∈ VALID_BASE_TYPES := by simpa using hbt
  have hpc' : pyStripS (if pc = "" then DEFAULT_CURRENCY else pc) ∈ SUPPORTED_CURRENCIES := by
    simpa using hpc
  have hcore : update_menu_entry_by_id db z E2.id new_name base_type ic pc pat nts now =
      update_menu_entry_core db z E2.id new_name (pyLowerS (pyStripS base_type)) ic
        (pyStripS (if pc = "" then DEFAULT_CURRENCY else pc)) amt (pyStripS nts) now := by
    simp [update_menu_entry_by_id, hbt', hpc', hpa]
  have hE1E2 : E1.id ≠ E2.id := by
    intro h
    have heq := nodupMapInj heids hE1 hE2 h
    rw [heq] at hE1str
    exact hS12 (hE1str.symm.trans hE2str)
  have hfindE2 : db.menu_entries.find? (fun me => me.id == E2.id && me.shop_id == z) =
      some E2 := by
    apply find?_unique hE2 (by simp [hE2shop])
    intro x hx hpx
    have hxid : x.id = E2.id := by
      simp only [Bool.and_eq_true, beq_iff_eq] at hpx
      exact hpx.1
    exact nodupMapInj heids hx hE2 hxid
  have hfindS2 : findStrainById db E2.strain_id = some S2 := by
    unfold findStrainById
    rw [hE2str]
    exact find?_key_eq hids hS2
  have hS1E2 : S1.id ≠ E2.strain_id := by
    rw [hE2str]
    exact hS12
  obtain ⟨hr1, hrstr, hrme, hroff⟩ := rename_merge_branch db E2.strain_id new_name S2 S1
    S1.name_normalised nd hnorm hnn hS2 hE2str.symm hS1 rfl hS1E2 hids hnorms
  have hE1ne : ¬((E1.strain_id == E2.strain_id) = true) := by
    rw [hE1str, hE2str]
    simp [hS12]
  have hE1db1 : E1 ∈ (rename_or_merge_strain_id db E2.strain_id new_name).2.menu_entries := by
    rw [hrme]
    refine List.mem_map.mpr ⟨E1, List.mem_filter.mpr ⟨hE1, ?_⟩, if_neg hE1ne⟩
    unfold entryCollides
    simp only [Bool.not_eq_true', Bool.and_eq_false_iff]
    left
    simpa using hE1ne
  have hnoE2 : ∀ me' ∈ (rename_or_merge_strain_id db E2.strain_id new_name).2.menu_entries,
      me'.id ≠ E2.id := by
    rw [hrme]
    intro me' hme'
    obtain ⟨me0, hme0, himg⟩ := List.mem_map.mp hme'
    have hid0 : me'.id = me0.id := by
      subst himg
      split <;> rfl
    intro hcontra
    have hme0E2 : me0 = E2 :=
      nodupMapInj heids (List.mem_of_mem_filter hme0) hE2 (by rw [← hid0, hcontra])
    have hfilt := List.of_mem_filter hme0
    rw [hme0E2] at hfilt
    have hcolE2 : entryCollides db.menu_entries E2.strain_id S1.id E2 = true := by
      unfold entryCollides
      rw [List.any_eq_true.mpr ⟨E1, hE1, by simp [hE1shop, hE2shop, hE1str]⟩]
      simp
    rw [hcolE2] at hfilt
    exact absurd hfilt (by simp)
  have hnoS2 : ∀ me' ∈ (rename_or_merge_strain_id db E2.strain_id new_name).2.menu_entries,
      me'.strain_id ≠ S2.id := by
    rw [hrme]
    intro me' hme'
    obtain ⟨me0, hme0, himg⟩ := List.mem_map.mp hme'
    subst himg
    split
    · simpa using hS12
    · rename_i hc
      rw [← hE2str]
      simpa using hc
  have huniq1 : ∀ me' ∈ (rename_or_merge_strain_id db E2.strain_id new_name).2.menu_entries,
      me'.shop_id = z → me'.strain_id = S1.id → me' = E1 := by
    rw [hrme]
    intro me' hme' hshop hstr
    obtain ⟨me0, hme0, himg⟩ := List.mem_map.mp hme'
    have hme0mem := List.mem_of_mem_filter hme0
    by_cases hc : (me0.strain_id == E2.strain_id) = true
    · exfalso
      rw [if_pos hc] at himg
      have hshop0 : me0.shop_id = z := by
        rw [← himg] at hshop
        exact hshop
      have hme0E2 : me0 = E2 := by
        apply nodupMapInj hpairs hme0mem hE2
        rw [hshop0, hE2shop]
        have : me0.strain_id = E2.strain_id := by simpa using hc
        rw [this]
      have hfilt := List.of_mem_filter hme0
      rw [hme0E2] at hfilt
      have hcolE2 : entryCollides db.menu_entries E2.strain_id S1.id E2 = true := by
        unfold entryCollides
        rw [List.any_eq_true.mpr ⟨E1, hE1, by simp [hE1shop, hE2shop, hE1str]⟩]
        simp
      rw [hcolE2] at hfilt
      exact absurd hfilt (by simp)
    · rw [if_neg hc] at himg
      subst himg
      apply nodupMapInj hpairs hme0mem hE1
      rw [hshop, hstr, hE1shop, hE1str]
  have hany : ((rename_or_merge_strain_id db E2.strain_id new_name).2.menu_entries.any
      (fun me => me.shop_id == z && me.strain_id == S1.id && !(me.id == E2.id))) = true := by
    rw [List.any_eq_true]
    exact ⟨E1, hE1db1, by simp [hE1shop, hE1str, hE1E2]⟩
  have hfinal : update_menu_entry_core db z E2.id new_name (pyLowerS (pyStripS base_type)) ic
      (pyStripS (if pc = "" then DEFAULT_CURRENCY else pc)) amt (pyStripS nts) now =
      ((true, ("Merged into existing strain: " ++ nd) ++
          ". Note: merged with existing shop entry; duplicate removed."),
        { (rename_or_merge_strain_id db E2.strain_id new_name).2 with
            menu_entries :=
              (rename_or_merge_strain_id db E2.strain_id new_name).2.menu_entries.filter
                (fun me => !(me.id == E2.id && me.shop_id == z)) }) := by
    simp [update_menu_entry_core, hfindE2, hfindS2, hnorm, hnn, hr1, hS1E2, hany]
  rw [hcore, hfinal]
  refine ⟨rfl, rfl, ?_, ?_, ?_, ?_⟩
  · refine List.mem_filter.mpr ⟨hE1db1, ?_⟩
    simp [hE1E2]
  · intro me' hme'
    exact huniq1 me' (List.mem_of_mem_filter hme')
  · intro me' hme'
    exact hnoE2 me' (List.mem_of_mem_filter hme')
  · intro me' hme'
    exact hnoS2 me' (List.mem_of_mem_filter hme')

theorem duplicate_merge_on_edit_witness :
    (update_menu_entry_by_id dbAmnesia 1 2 "Amnesia" "sativa" false "€" "10" "" "t1").1.1 =
      true ∧
    sampleEntry 1 1 1 ∈ (update_menu_entry_by_id dbAmnesia 1 2 "Amnesia" "sativa" false "€"
      "10" "" "t1").2.menu_entries ∧
    (∀ me' ∈ (update_menu_entry_by_id dbAmnesia 1 2 "Amnesia" "sativa" false "€" "10" ""
      "t1").2.menu_entries, me'.id ≠ 2) := by
  have h := duplicate_merge_on_edit dbAmnesia 1 (sampleEntry 1 1 1) (sampleEntry 2 1 2)
    (sampleStrain 1 "amnesia" "Amnesia") (sampleStrain 2 "amnesya" "Amnesya")
    "Amnesia" "sativa" false "€" "10" "" "t1" "Amnesia" "10"
    (by decide) (by decide) rfl (by decide) rfl rfl (by decide) rfl rfl
    (by decide) (by decide) (by decide) (by decide) (by decide)
    (by decide) (by decide) (by decide) (by decide)
  exact ⟨h.1, h.2.2.1, h.2.2.2.2.1⟩

/-! ## C2: matching-key uniqueness invariant -/

theorem applyRegistryOp_inv {db : DB} (hwf : StrainWF db) (hk : KeysUnique db)
    (op : RegistryOp) :
    StrainWF (applyRegistryOp db op) ∧ KeysUnique (applyRegistryOp db op) := by
  cases op with
  | resolve name now =>
    by_cases hp : (normalise_strain_name name).1 = ""
    · have : applyRegistryOp db (.resolve name now) = db := by
        simp [applyRegistryOp, upsert_strain, hp]
      rw [this]
      exact ⟨hwf, hk⟩
    · cases hfind : findStrainByNorm db (normalise_strain_name name).1 with
      | some st =>
        have hres : applyRegistryOp db (.resolve name now) =
            { db with strains := db.strains.map (fun s =>
                if s.name_normalised == (normalise_strain_name name).1 then
                  { s with name_display := (normalise_strain_name name).2 } else s) } := by
          simp [applyRegistryOp, upsert_strain, hp, hfind]
        rw [hres]
        refine ⟨⟨?_, ?_⟩, ?_⟩
        · rw [mapIdOfPointwise (fun s => by split <;> rfl)]
          exact hwf.1
        · intro st' hst'
          obtain ⟨s0, hs0, himg⟩ := List.mem_map.mp hst'
          have : st'.id = s0.id := by
            subst himg
            split <;> rfl
          rw [this]
          exact hwf.2 s0 hs0
        · unfold KeysUnique
          rw [mapIdOfPointwise (fun s => by split <;> rfl)]
          exact hk
      | none =>
        have hres : applyRegistryOp db (.resolve name now) =
            { db with
                strains := db.strains ++ [⟨db.next_strain_id,
                  (normalise_strain_name name).1, (normalise_strain_name name).2, now⟩],
                next_strain_id := db.next_strain_id + 1 } := by
          simp [applyRegistryOp, upsert_strain, hp, hfind]
        rw [hres]
        have hfreshid : db.next_strain_id ∉ db.strains.map (fun st => st.id) := by
          intro hmem
          obtain ⟨s0, hs0, hid⟩ := List.mem_map.mp hmem
          exact absurd hid (Nat.ne_of_lt (hwf.2 s0 hs0))
        have hfreshnorm : (normalise_strain_name name).1 ∉
            db.strains.map (fun st => st.name_normalised) := by
          intro hmem
          obtain ⟨s0, hs0, hn⟩ := List.mem_map.mp hmem
          have := List.find?_eq_none.mp hfind s0 hs0
          simp [hn] at this
        refine ⟨⟨?_, ?_⟩, ?_⟩
        · simp only [List.map_append, List.map_cons, List.map_nil]
          exact List.Nodup.append hwf.1 (List.nodup_singleton _)
            (by simpa [List.disjoint_singleton] using hfreshid)
        · intro st' hst'
          rcases List.mem_append.mp hst' with hl | hr
          · exact Nat.lt_succ_of_lt (hwf.2 st' hl)
          · simp only [List.mem_singleton] at hr
            subst hr
            exact Nat.lt_succ_self _
        · unfold KeysUnique
          simp only [List.map_append, List.map_cons, List.map_nil]
          exact List.Nodup.append hk (List.nodup_singleton _)
            (by simpa [List.disjoint_singleton] using hfreshnorm)
  | rename sid nm =>
    show StrainWF (rename_or_merge_strain_id db sid nm).2 ∧
      KeysUnique (rename_or_merge_strain_id db sid nm).2
    by_cases hp : (normalise_strain_name nm).1 = ""
    · have : (rename_or_merge_strain_id db sid nm).2 = db := by
        simp [rename_or_merge_strain_id, hp]
      rw [this]
      exact ⟨hwf, hk⟩
    · cases hfind : findStrainById db sid with
      | none =>
        have : (rename_or_merge_strain_id db sid nm).2 = db := by
          simp [rename_or_merge_strain_id, hp, hfind]
        rw [this]
        exact ⟨hwf, hk⟩
      | some cur =>
        have hcurmem : cur ∈ db.strains := by
          have := List.mem_of_find?_eq_some hfind
          exact this
        have hcurid : cur.id = sid := by
          have := List.find?_some hfind
          simpa using this
        by_cases hnoop : (normalise_strain_name nm).1 = cur.name_normalised ∧
            (normalise_strain_name nm).2 = cur.name_display
        · have : (rename_or_merge_strain_id db sid nm).2 = db := by
            have hp' : ¬(cur.name_normalised = "") := by
              rw [← hnoop.1]
              exact hp
            simp [rename_or_merge_strain_id, hp, hp', hfind, hnoop]
          rw [this]
          exact ⟨hwf, hk⟩
        · cases hbyn : findStrainByNorm db (normalise_strain_name nm).1 with
          | some existing =>
            have hexmem : existing ∈ db.strains := List.mem_of_find?_eq_some hbyn
            have hexnorm : existing.name_normalised = (normalise_strain_name nm).1 := by
              have := List.find?_some hbyn
              simpa using this
            by_cases hne : existing.id ≠ sid
            · -- merge: the source row is removed, the target's display updated
              have hres : (rename_or_merge_strain_id db sid nm).2.strains =
                  (db.strains.filter (fun st => !(st.id == sid))).map
                    (fun st => if st.id == existing.id then
                      { st with name_display := (normalise_strain_name nm).2 } else st) := by
                simp [rename_or_merge_strain_id, hp, hfind, hnoop, hbyn, hne]
              have hnext : (rename_or_merge_strain_id db sid nm).2.next_strain_id =
                  db.next_strain_id := by
                simp [rename_or_merge_strain_id, hp, hfind, hnoop, hbyn, hne]
              refine ⟨⟨?_, ?_⟩, ?_⟩
              · rw [hres, mapIdOfPointwise (fun s => by split <;> rfl)]
                exact hwf.1.sublist ((List.filter_sublist _).map _)
              · intro st' hst'
                rw [hres] at hst'
                obtain ⟨s0, hs0, himg⟩ := List.mem_map.mp hst'
                have : st'.id = s0.id := by
                  subst himg
                  split <;> rfl
                rw [hnext, this]
                exact hwf.2 s0 (List.mem_of_mem_filter hs0)
              · unfold KeysUnique
                rw [hres, mapIdOfPointwise (fun s => by split <;> rfl)]
                exact hk.sublist ((List.filter_sublist _).map _)
            · -- the strain holding the key is this very strain: display-only rename
              have hexcur : existing = cur :=
                nodupMapInj hwf.1 hexmem hcurmem (by
                  rw [hcurid]
                  simpa using hne)
              have hres : (rename_or_merge_strain_id db sid nm).2.strains =
                  db.strains.map (fun st => if st.id == sid then
                    { st with
                        name_normalised := (normalise_strain_name nm).1
                        name_display := (normalise_strain_name nm).2 } else st) := by
                simp [rename_or_merge_strain_id, hp, hfind, hnoop, hbyn, hne]
              have hnext : (rename_or_merge_strain_id db sid nm).2.next_strain_id =
                  db.next_strain_id := by
                simp [rename_or_merge_strain_id, hp, hfind, hnoop, hbyn, hne]
              have hnormpt : ∀ s ∈ db.strains,
                  (if s.id == sid then
                    { s with
                        name_normalised := (normalise_strain_name nm).1
                        name_display := (normalise_strain_name nm).2 }
                    else s).name_normalised = s.name_normalised := by
                intro s hs
                by_cases hsid : (s.id == sid) = true
                · have hseq : s = cur := nodupMapInj hwf.1 hs hcurmem
                    (by rw [hcurid]; simpa using hsid)
                  rw [if_pos hsid, hseq, ← hexcur, hexnorm]
                · rw [if_neg hsid]
              refine ⟨⟨?_, ?_⟩, ?_⟩
              · rw [hres, mapIdOfPointwise (fun s => by split <;> rfl)]
                exact hwf.1
              · intro st' hst'
                rw [hres] at hst'
                obtain ⟨s0, hs0, himg⟩ := List.mem_map.mp hst'
                have : st'.id = s0.id := by
                  subst himg
                  split <;> rfl
                rw [hnext, this]
                exact hwf.2 s0 hs0
              · unfold KeysUnique
                rw [hres, List.map_map]
                have hmapeq : db.strains.map ((fun st => st.name_normalised) ∘ (fun st =>
                    if st.id == sid then
                      { st with
                          name_normalised := (normalise_strain_name nm).1
                          name_display := (normalise_strain_name nm).2 } else st)) =
                    db.strains.map (fun st => st.name_normalised) :=
                  List.map_congr_left (fun s hs => hnormpt s hs)
                rw [hmapeq]
                exact hk
          | none =>
            -- rename in place to a fresh key
            have hres : (rename_or_merge_strain_id db sid nm).2.strains =
                db.strains.map (fun st => if st.id == sid then
                  { st with
                      name_normalised := (normalise_strain_name nm).1
                      name_display := (normalise_strain_name nm).2 } else st) := by
              simp [rename_or_merge_strain_id, hp, hfind, hnoop, hbyn]
            have hnext : (rename_or_merge_strain_id db sid nm).2.next_strain_id =
                db.next_strain_id := by
              simp [rename_or_merge_strain_id, hp, hfind, hnoop, hbyn]
            have hfreshnorm : ∀ s ∈ db.strains,
                s.name_normalised ≠ (normalise_strain_name nm).1 := by
              intro s hs
              have := List.find?_eq_none.mp hbyn s hs
              simpa using this
            refine ⟨⟨?_, ?_⟩, ?_⟩
            · rw [hres, mapIdOfPointwise (fun s => by split <;> rfl)]
              exact hwf.1
            · intro st' hst'
              rw [hres] at hst'
              obtain ⟨s0, hs0, himg⟩ := List.mem_map.mp hst'
              have : st'.id = s0.id := by
                subst himg
                split <;> rfl
              rw [hnext, this]
              exact hwf.2 s0 hs0
            · unfold KeysUnique
              rw [hres, List.map_map]
              apply List.Nodup.map_on ?_ (List.Nodup.of_map _ hwf.1)
              intro x hx y hy hf
              simp only [Function.comp_apply] at hf
              by_cases hxid : (x.id == sid) = true
              · by_cases hyid : (y.id == sid) = true
                · exact nodupMapInj hwf.1 hx hy (by
                    have h1 : x.id = sid := by simpa using hxid
                    have h2 : y.id = sid := by simpa using hyid
                    rw [h1, h2])
                · simp only [if_pos hxid, if_neg hyid] at hf
                  exact absurd hf.symm (hfreshnorm y hy)
              · by_cases hyid : (y.id == sid) = true
                · simp only [if_neg hxid, if_pos hyid] at hf
                  exact absurd hf (hfreshnorm x hx)
                · simp only [if_neg hxid, if_neg hyid] at hf
                  exact nodupMapInj hk hx hy hf

/-- C2 — Matching-key uniqueness invariant: starting from a well-formed state
with no two strain rows sharing a matching key, any sequence of
resolve-or-create (`upsert_strain`) and `rename_or_merge` operations keeps
the matching keys unique (and the state well-formed). -/
theorem keys_unique_invariant (ops : List RegistryOp) (db : DB)
    (hwf : StrainWF db) (hk : KeysUnique db) :
    KeysUnique (applyRegistryOps db ops) ∧ StrainWF (applyRegistryOps db ops) := by
  induction ops generalizing db with
  | nil => exact ⟨hk, hwf⟩
  | cons op ops ih =>
    obtain ⟨hwf', hk'⟩ := applyRegistryOp_inv hwf hk op
    exact ih (applyRegistryOp db op) hwf' hk'

theorem keys_unique_invariant_witness :
    KeysUnique (applyRegistryOps emptyDB
      [.resolve "Tropicana Chery" "t0", .resolve "Tropicana Cherry" "t0",
        .rename 1 "Tropicana Cherry", .resolve "ak47" "t1", .rename 2 "AK-48"]) :=
  (keys_unique_invariant
    [.resolve "Tropicana Chery" "t0", .resolve "Tropicana Cherry" "t0",
      .rename 1 "Tropicana Cherry", .resolve "ak47" "t1", .rename 2 "AK-48"]
    emptyDB (by unfold StrainWF; decide) (by unfold KeysUnique; decide)).1

end Budfinder
